import Mathlib

/-!
# The consumer runtime core of MLT

A shallow embedding of `src/framework/mlt_consumer.c`: the push slot
(`mlt_consumer_put_frame`, `mlt_consumer_get_frame`), the sink entry point
(`mlt_consumer_rt_frame`), the read-ahead thread with its skip controller
(`consumer_read_ahead_thread`) and the life cycle
(`mlt_consumer_start`, `consumer_read_ahead_start`, `consumer_read_ahead_stop`,
`mlt_consumer_purge`, `mlt_consumer_stop`).

Conventions.

* C `int`/`int64_t` values are mathematical integers (`Int`); the theorems are
  about runs without signed overflow.  The one division of the file is C's
  truncating division, `Int.tdiv`.
* A frame pointer is a frame value carrying its address; `NULL` is `none`.
* Whatever another thread or an external collaborator contributes to a call
  (what a condition wait finds on wake-up, the frame the upstream service
  delivers, the answer of the sink's `is_stopped`, elapsed times) is an
  explicit argument of the function that embeds the call.  A call that is still
  blocked when the listed wake-ups are used up yields `none`.
* `closed` lists the addresses handed to `mlt_frame_close`.
-/

namespace Mlt

/-! ## Property bags -/

/-- Modelled from the spec: the property bag (`mlt_properties`), which the
consumer core uses as a primitive and whose code is not among the sources.  A bag
answers typed reads per key: `ints` is what `mlt_properties_get_int` returns
(0 for an unset key), `doubles` what `mlt_properties_get_double` returns,
`strings` what `mlt_properties_get` returns and `data` what
`mlt_properties_get_data` returns (`none` is `NULL`).  A double is only ever
copied by the core, never computed with, and is carried as a rational. -/
structure mlt_properties where
  ints : String → Int
  doubles : String → Rat
  strings : String → Option String
  data : String → Option Nat

/-- The bag in which nothing has been set. -/
def mlt_properties_new : mlt_properties :=
  { ints := fun _ => 0, doubles := fun _ => 0, strings := fun _ => none, data := fun _ => none }

def mlt_properties_get_int (p : mlt_properties) (name : String) : Int := p.ints name

def mlt_properties_get_double (p : mlt_properties) (name : String) : Rat := p.doubles name

def mlt_properties_get (p : mlt_properties) (name : String) : Option String := p.strings name

def mlt_properties_get_data (p : mlt_properties) (name : String) : Option Nat := p.data name

def mlt_properties_set_int (p : mlt_properties) (name : String) (value : Int) : mlt_properties :=
  { p with ints := fun k => if k = name then value else p.ints k }

def mlt_properties_set_double (p : mlt_properties) (name : String) (value : Rat) :
    mlt_properties :=
  { p with doubles := fun k => if k = name then value else p.doubles k }

def mlt_properties_set (p : mlt_properties) (name : String) (value : Option String) :
    mlt_properties :=
  { p with strings := fun k => if k = name then value else p.strings k }

def mlt_properties_set_data (p : mlt_properties) (name : String) (value : Option Nat) :
    mlt_properties :=
  { p with data := fun k => if k = name then value else p.data k }

/-! ## Frames and the consumer -/

/-- A frame: its address (the identity of the `mlt_frame` pointer), its property
bag, whether `mlt_frame_get_image` has been called on it, and the
sample-calculator counters of the `mlt_frame_get_audio` calls made on it. -/
structure mlt_frame where
  addr : Nat
  properties : mlt_properties
  image : Bool
  audio : List Int

/-- A frame as the frame source creates it: nothing set, nothing fetched. -/
def mlt_frame_init (addr : Nat) : mlt_frame :=
  { addr := addr, properties := mlt_properties_new, image := false, audio := [] }

/-- The locals of `consumer_read_ahead_thread` that live across loop
iterations (lines 327-354): the frame in hand, the audio counter, the maximum
queue size `buffer` (property `buffer` plus one), the two switches and the
rolling counters of the skip controller. -/
structure read_ahead where
  frame : Option mlt_frame
  video_off : Int
  audio_off : Int
  buffer : Int
  counter : Int
  count : Int
  skipped : Int
  time_wait : Int
  time_frame : Int
  time_process : Int
  skip_next : Int

/-- Where the read-ahead thread stands: created but not yet run, at the test of
`while ( this->ahead )`, inside the loop before the enqueue, inside the loop
after the enqueue, or returned (with the locals it ended on). -/
inductive thread
  | entry
  | top (l : read_ahead)
  | push (l : read_ahead)
  | body (l : read_ahead)
  | exited (l : read_ahead)

/-- The fields of `struct mlt_consumer_s` the core works on.  `producer` is
what `mlt_service_producer` returns, `put` the push slot, `real_time` the flag
latched by `mlt_consumer_start`, `queue` the deque (an entry may be `NULL`),
`ahead_thread` the thread created by `consumer_read_ahead_start` and not yet
joined. -/
structure mlt_consumer where
  properties : mlt_properties
  producer : Option Nat
  put : Option mlt_frame
  real_time : Int
  ahead : Bool
  queue : List (Option mlt_frame)
  ahead_thread : Option thread
  closed : List Nat

/-- `mlt_frame_close( frame )`, a no-op on `NULL`. -/
def mlt_frame_close (this : mlt_consumer) (frame : Option mlt_frame) : mlt_consumer :=
  match frame with
  | none => this
  | some f => { this with closed := this.closed ++ [f.addr] }

/-- What a thread finds when `pthread_cond_timedwait` on the push condition
returns: the answer of `mlt_consumer_is_stopped` and the push slot. -/
structure put_wake where
  stopped : Bool
  put : Option mlt_frame

/-- What a thread finds when `pthread_cond_wait` on the queue condition
returns: the `ahead` flag and the queue. -/
structure queue_wake where
  ahead : Bool
  queue : List (Option mlt_frame)

/-- The surroundings of one call into the core. -/
structure world where
  /-- answer of `mlt_consumer_is_stopped` at the first test of a push wait -/
  stopped : Bool
  /-- what the successive returns of `pthread_cond_timedwait` find -/
  put_wakes : List put_wake
  /-- what the successive returns of `pthread_cond_wait` find -/
  queue_wakes : List queue_wake
  /-- the frame `mlt_service_get_frame` stores through `&frame` -/
  upstream : Option mlt_frame
  /-- what `mlt_service_apply_filters` does to the properties of the frame -/
  filters : mlt_properties → mlt_properties

/-- The world in which nothing happens: not stopped, no wake-up, no upstream
frame, no filter. -/
def world.quiet : world :=
  { stopped := false, put_wakes := [], queue_wakes := [], upstream := none, filters := id }

/-! ## Push-mode ingress (lines 204-300) -/

/-- The wait of `mlt_consumer_put_frame` (lines 216-222):
`while ( !mlt_consumer_is_stopped( this ) && this->put != NULL )` with one
timed wait per round.  The result is the slot found when the loop is left. -/
def put_frame_wait : Bool → Option mlt_frame → List put_wake → Option (Option mlt_frame)
  | stopped, put, [] => if !stopped && put.isSome then none else some put
  | stopped, put, w :: ws =>
    if !stopped && put.isSome then put_frame_wait w.stopped w.put ws else some put

/-- `mlt_consumer_put_frame` (lines 204-236); the second component is the
return value `error`. -/
def mlt_consumer_put_frame (this : mlt_consumer) (frame : mlt_frame) (w : world) :
    Option (mlt_consumer × Int) :=
  let error : Int := 1
  if this.producer.isNone then
    match put_frame_wait w.stopped this.put w.put_wakes with
    | none => none
    | some slot =>
      if slot.isNone then some ({ this with put := some frame }, error)
      else some (mlt_frame_close { this with put := slot } (some frame), error)
  else some (mlt_frame_close this (some frame), error)

/-- The wait of `mlt_consumer_get_frame` (lines 258-264):
`while ( !mlt_consumer_is_stopped( this ) && this->put == NULL )`. -/
def get_frame_wait : Bool → Option mlt_frame → List put_wake → Option (Option mlt_frame)
  | stopped, put, [] => if !stopped && put.isNone then none else some put
  | stopped, put, w :: ws =>
    if !stopped && put.isNone then get_frame_wait w.stopped w.put ws else some put

/-- `mlt_service_apply_filters( service, frame, 0 )`: the frame is passed by
value, so the filters act on what it holds, not on which frame it is. -/
def mlt_service_apply_filters (w : world) (frame : mlt_frame) : mlt_frame :=
  { frame with properties := w.filters frame.properties }

/-- The enrichment of an acquired frame (lines 277-296). -/
def get_frame_enrich (properties : mlt_properties) (frame : mlt_frame) : mlt_frame :=
  let frame_properties := frame.properties
  let test_card := mlt_properties_get_data properties "test_card_producer"
  let frame_properties :=
    if test_card.isSome then
      mlt_properties_set_data frame_properties "test_card_producer" test_card
    else frame_properties
  let frame_properties :=
    mlt_properties_set frame_properties "rescale.interp" (mlt_properties_get properties "rescale")
  let frame_properties :=
    mlt_properties_set_double frame_properties "consumer_aspect_ratio"
      (mlt_properties_get_double properties "aspect_ratio")
  let frame_properties :=
    if mlt_properties_get_int properties "progressive" ≠ 0
        ∨ mlt_properties_get_int properties "deinterlace" ≠ 0 then
      mlt_properties_set_int frame_properties "consumer_deinterlace" 1
    else frame_properties
  { frame with properties := frame_properties }

/-- `mlt_consumer_get_frame` (lines 241-300). -/
def mlt_consumer_get_frame (this : mlt_consumer) (w : world) :
    Option (mlt_consumer × Option mlt_frame) :=
  let properties := this.properties
  let acquired : Option (mlt_consumer × Option mlt_frame) :=
    if this.producer.isNone ∧ mlt_properties_get_int properties "put_mode" ≠ 0 then
      match get_frame_wait w.stopped this.put w.put_wakes with
      | none => none
      | some frame => some ({ this with put := none }, frame.map (mlt_service_apply_filters w))
    else if this.producer.isSome then some (this, w.upstream)
    else some (this, none)
  match acquired with
  | none => none
  | some (this, frame) => some (this, frame.map (get_frame_enrich properties))

/-! ## The read-ahead thread (lines 311-455) -/

/-- What one loop iteration takes from outside the thread: the three results
of `time_difference( &ante )` (lines 386, 390 and 444, in microseconds; the
clock is `gettimeofday`, so a difference may be negative) and the value of
`mlt_deque_count( this->queue )` at the skip decision (line 447). -/
structure tick where
  wait : Int
  acquire : Int
  process : Int
  depth : Nat

/-- The bootstrap (lines 320-373), on the frame the first
`mlt_consumer_get_frame` returned.  With no frame, `mlt_frame_get_image` and
`frame->get_audio = NULL` dereference `NULL`: no behaviour (`none`) unless both
video and audio are off. -/
def read_ahead_bootstrap (properties : mlt_properties) (frame : Option mlt_frame) :
    Option read_ahead :=
  let video_off := mlt_properties_get_int properties "video_off"
  let audio_off := mlt_properties_get_int properties "audio_off"
  let buffer := mlt_properties_get_int properties "buffer" + 1
  let counter : Int := 0
  match frame with
  | none =>
    if video_off = 0 ∨ audio_off = 0 then none
    else some
      { frame := none, video_off := video_off, audio_off := audio_off, buffer := buffer,
        counter := counter, count := 1, skipped := 0, time_wait := 0, time_frame := 0,
        time_process := 0, skip_next := 0 }
  | some frame =>
    let frame := if video_off = 0 then { frame with image := true } else frame
    let frame := if audio_off = 0 then { frame with audio := frame.audio ++ [counter] } else frame
    let counter := if audio_off = 0 then counter + 1 else counter
    let frame :=
      { frame with properties := mlt_properties_set_int frame.properties "rendered" 1 }
    some
      { frame := some frame, video_off := video_off, audio_off := audio_off, buffer := buffer,
        counter := counter, count := 1, skipped := 0, time_wait := 0, time_frame := 0,
        time_process := 0, skip_next := 0 }

/-- Lines 386-390: the two time samples around the acquisition of `frame`. -/
def loop_acquire (l : read_ahead) (t : tick) (frame : Option mlt_frame) : read_ahead :=
  let l := { l with time_wait := l.time_wait + t.wait }
  { l with frame := frame, time_frame := l.time_frame + t.acquire }

/-- Lines 396-408: `count ++`, then the reset for a frame whose `_speed` is
not 1. -/
def loop_count (l : read_ahead) (frame : mlt_frame) : read_ahead :=
  let l := { l with count := l.count + 1 }
  if mlt_properties_get_int frame.properties "_speed" ≠ 1 then
    { l with skipped := 0, time_frame := 0, time_process := 0, time_wait := 0, count := 1,
             skip_next := 0 }
  else l

/-- Lines 410-433: fetch the image and mark the frame rendered, or skip it. -/
def loop_image (l : read_ahead) (frame : mlt_frame) : read_ahead × mlt_frame :=
  if l.skip_next = 0 then
    let frame := if l.video_off = 0 then { frame with image := true } else frame
    (l, { frame with properties := mlt_properties_set_int frame.properties "rendered" 1 })
  else
    let l := { l with skipped := l.skipped + 1, skip_next := 0 }
    if l.skipped > 5 then
      ({ l with skipped := 0, time_frame := 0, time_process := 0, time_wait := 0, count := 1 },
        frame)
    else (l, frame)

/-- Lines 435-441: the audio fetch with `counter++`. -/
def loop_audio (l : read_ahead) (frame : mlt_frame) : read_ahead × mlt_frame :=
  if l.audio_off = 0 then
    ({ l with counter := l.counter + 1 }, { frame with audio := frame.audio ++ [l.counter] })
  else (l, frame)

/-- Lines 443-448: the last time sample and the skip decision. -/
def loop_decide (l : read_ahead) (t : tick) : read_ahead :=
  let l := { l with time_process := l.time_process + t.process }
  if (t.depth : Int) ≤ 5
      ∧ Int.tdiv (l.time_wait + l.time_frame + l.time_process) l.count > 40000 then
    { l with skip_next := 1 }
  else l

/-- One loop iteration after the enqueue (lines 386-448); `frame` is what
`mlt_consumer_get_frame` returned at line 389. -/
def read_ahead_loop (l : read_ahead) (t : tick) (frame : Option mlt_frame) : read_ahead :=
  let l := loop_acquire l t frame
  match frame with
  | none => l
  | some frame =>
    let l := loop_count l frame
    let (l, frame) := loop_image l frame
    let (l, frame) := loop_audio l frame
    let l := loop_decide l t
    { l with frame := some frame }

/-- The locals after a sequence of iterations. -/
def read_ahead_run (l : read_ahead) : List (tick × Option mlt_frame) → read_ahead
  | [] => l
  | (t, frame) :: rest => read_ahead_run (read_ahead_loop l t frame) rest

/-- The frame in hand at the end of each iteration of a sequence. -/
def read_ahead_trace (l : read_ahead) : List (tick × Option mlt_frame) → List (Option mlt_frame)
  | [] => []
  | (t, frame) :: rest =>
    (read_ahead_loop l t frame).frame :: read_ahead_trace (read_ahead_loop l t frame) rest

/-- One step of `consumer_read_ahead_thread` on the consumer.  A step that is
blocked (in a wait, or because there is no thread) leaves the consumer as it
is. -/
def consumer_read_ahead_thread (this : mlt_consumer) (w : world) (t : tick) : mlt_consumer :=
  match this.ahead_thread with
  | none => this
  | some thread.entry =>
    match mlt_consumer_get_frame this w with
    | none => this
    | some (this1, frame) =>
      match read_ahead_bootstrap this.properties frame with
      | none => this
      | some l => { this1 with ahead_thread := some (thread.top l) }
  | some (thread.top l) =>
    if this.ahead then { this with ahead_thread := some (thread.push l) }
    else { mlt_frame_close this l.frame with ahead_thread := some (thread.exited l) }
  | some (thread.push l) =>
    if this.ahead && decide ((this.queue.length : Int) ≥ l.buffer) then this
    else { this with queue := this.queue ++ [l.frame], ahead_thread := some (thread.body l) }
  | some (thread.body l) =>
    match mlt_consumer_get_frame this w with
    | none => this
    | some (this1, frame) =>
      { this1 with ahead_thread := some (thread.top (read_ahead_loop l t frame)) }
  | some (thread.exited _) => this

/-! ## Start, dequeue, purge and stop (lines 149-198 and 457-617) -/

/-- `consumer_read_ahead_start` (lines 457-479). -/
def consumer_read_ahead_start (this : mlt_consumer) : mlt_consumer :=
  { this with ahead := true, queue := [], ahead_thread := some thread.entry }

/-- The local `size` of `mlt_consumer_rt_frame` at the wait of line 554
(lines 540-550). -/
def rt_frame_size (this : mlt_consumer) : Int :=
  let size : Int := 1
  if this.ahead = false then
    let buffer := mlt_properties_get_int this.properties "buffer"
    let prefill := mlt_properties_get_int this.properties "prefill"
    if buffer > 1 then
      if prefill > 0 ∧ prefill < buffer then prefill else buffer
    else size
  else size

/-- The wait of `mlt_consumer_rt_frame` (lines 554-555):
`while( this->ahead && mlt_deque_count( this->queue ) < size )`. -/
def rt_frame_wait (size : Int) : Bool → List (Option mlt_frame) → List queue_wake →
    Option queue_wake
  | ahead, queue, [] =>
    if ahead && decide ((queue.length : Int) < size) then none
    else some { ahead := ahead, queue := queue }
  | ahead, queue, w :: ws =>
    if ahead && decide ((queue.length : Int) < size) then rt_frame_wait size w.ahead w.queue ws
    else some { ahead := ahead, queue := queue }

/-- `mlt_consumer_rt_frame` (lines 529-571). -/
def mlt_consumer_rt_frame (this : mlt_consumer) (w : world) :
    Option (mlt_consumer × Option mlt_frame) :=
  if this.real_time ≠ 0 then
    let size := rt_frame_size this
    let this := if this.ahead = false then consumer_read_ahead_start this else this
    match rt_frame_wait size this.ahead this.queue w.queue_wakes with
    | none => none
    | some found =>
      some ({ this with ahead := found.ahead, queue := found.queue.tail }, found.queue.head?.join)
  else
    match mlt_consumer_get_frame this w with
    | none => none
    | some (this, frame) =>
      some (this, frame.map fun f =>
        { f with properties := mlt_properties_set_int f.properties "rendered" 1 })

/-- The wipe of the queue, `while ( mlt_deque_count( this->queue ) )
mlt_frame_close( mlt_deque_pop_back( this->queue ) )` (lines 509-510 and
522-523). -/
def queue_wipe (this : mlt_consumer) : mlt_consumer :=
  { this.queue.reverse.foldl mlt_frame_close this with queue := [] }

/-- `mlt_consumer_purge` (lines 517-527). -/
def mlt_consumer_purge (this : mlt_consumer) : mlt_consumer :=
  if this.ahead then queue_wipe this else this

/-- The first half of `consumer_read_ahead_stop` (lines 484-497): clear
`ahead` and broadcast. -/
def read_ahead_stop_signal (this : mlt_consumer) : mlt_consumer :=
  { this with ahead := false }

/-- The second half of `consumer_read_ahead_stop` (lines 500-513):
`pthread_join` returns once the thread has returned; then the queue is wiped
and closed. -/
def read_ahead_stop_join (this : mlt_consumer) : Option mlt_consumer :=
  match this.ahead_thread with
  | some (thread.exited _) => some { queue_wipe this with ahead_thread := none }
  | _ => none

/-- `consumer_read_ahead_stop` (lines 481-515).  `schedule` is what the
read-ahead thread does between the broadcast and the join. -/
def consumer_read_ahead_stop (this : mlt_consumer) (schedule : List (world × tick)) :
    Option mlt_consumer :=
  if this.ahead then
    let this := read_ahead_stop_signal this
    let this := schedule.foldl (fun c s => consumer_read_ahead_thread c s.1 s.2) this
    read_ahead_stop_join this
  else some this

/-- `mlt_consumer_start` (lines 149-198).  `factory` is what
`mlt_factory_producer( NULL, test_card )` returns and `start` the return value
of the sink's `start`, `none` when the sink has none.  The `ante` command
(`system`) acts outside the consumer. -/
def mlt_consumer_start (this : mlt_consumer) (factory : Option Nat) (start : Option Int) :
    mlt_consumer × Int :=
  let properties := this.properties
  let test_card := mlt_properties_get properties "test_card"
  let this := { mlt_frame_close this this.put with put := none }
  let properties :=
    if test_card.isSome then
      if (mlt_properties_get_data properties "test_card_producer").isNone then
        if factory.isSome then mlt_properties_set_data properties "test_card_producer" factory
        else properties
      else properties
    else mlt_properties_set_data properties "test_card_producer" none
  let this :=
    { this with properties := properties,
                real_time := mlt_properties_get_int properties "real_time" }
  match start with
  | some code => (this, code)
  | none => (this, 0)

/-- `mlt_consumer_stop` (lines 585-617).  The sink's `stop` works on the
sink's own state; the `post` command (`system`) acts outside the consumer. -/
def mlt_consumer_stop (this : mlt_consumer) (schedule : List (world × tick)) :
    Option (mlt_consumer × Int) :=
  let properties := this.properties
  let stopped :=
    if mlt_properties_get_int properties "real_time" ≠ 0 then
      consumer_read_ahead_stop this schedule
    else some this
  match stopped with
  | none => none
  | some this =>
    let this :=
      { this with properties := mlt_properties_set_data this.properties "test_card_producer" none }
    let this := if this.put.isSome then { mlt_frame_close this this.put with put := none } else this
    some (this, 0)

/-- `mlt_consumer_init` as far as the core's own fields go (lines 36-98):
the structure is zeroed and the defaults are set.  `normalisation` and
`test_card` are the values of `MLT_NORMALISATION` and `MLT_TEST_CARD`. -/
def mlt_consumer_init (normalisation test_card : Option String) : mlt_consumer :=
  let properties := mlt_properties_new
  let properties :=
    if normalisation.isNone ∨ normalisation ≠ some "NTSC" then
      let properties := mlt_properties_set properties "normalisation" (some "PAL")
      let properties := mlt_properties_set_double properties "fps" 25
      let properties := mlt_properties_set_int properties "width" 720
      let properties := mlt_properties_set_int properties "height" 576
      let properties := mlt_properties_set_int properties "progressive" 0
      mlt_properties_set_double properties "aspect_ratio" (59 / 54)
    else
      let properties := mlt_properties_set properties "normalisation" (some "NTSC")
      let properties := mlt_properties_set_double properties "fps" (30000 / 1001)
      let properties := mlt_properties_set_int properties "width" 720
      let properties := mlt_properties_set_int properties "height" 480
      let properties := mlt_properties_set_int properties "progressive" 0
      mlt_properties_set_double properties "aspect_ratio" (10 / 11)
  let properties := mlt_properties_set properties "rescale" (some "bilinear")
  let properties := mlt_properties_set_int properties "buffer" 25
  let properties := mlt_properties_set_int properties "frequency" 48000
  let properties := mlt_properties_set_int properties "channels" 2
  let properties := mlt_properties_set_int properties "real_time" 1
  let properties := mlt_properties_set properties "test_card" test_card
  { properties := properties, producer := none, put := none, real_time := 0, ahead := false,
    queue := [], ahead_thread := none, closed := [] }

/-! ## Notions used in the statements -/

/-- The number of iterations of a sequence that acquired a frame. -/
def acquired : List (tick × Option mlt_frame) → Nat
  | [] => 0
  | (_, none) :: rest => acquired rest
  | (_, some _) :: rest => acquired rest + 1

/-- The sample-calculator counters of the audio fetches recorded on a sequence
of frames, in order. -/
def audio_fetches : List (Option mlt_frame) → List Int
  | [] => []
  | none :: rest => audio_fetches rest
  | some frame :: rest => frame.audio ++ audio_fetches rest

/-- Every acquired frame of the sequence arrives without audio fetched. -/
def fresh : List (tick × Option mlt_frame) → Bool
  | [] => true
  | (_, none) :: rest => fresh rest
  | (_, some frame) :: rest => frame.audio.isEmpty && fresh rest

/-- Every frame of the sequence is a normal-speed frame that the loop skips:
it arrives while `skip_next` is set. -/
def skipped_run (l : read_ahead) : List (tick × mlt_frame) → Bool
  | [] => true
  | (t, frame) :: rest =>
    decide (mlt_properties_get_int frame.properties "_speed" = 1) && decide (l.skip_next ≠ 0)
      && skipped_run (read_ahead_loop l t (some frame)) rest

/-- A sequence of acquired frames as the input of a run. -/
def feed (ins : List (tick × mlt_frame)) : List (tick × Option mlt_frame) :=
  ins.map fun a => (a.1, some a.2)

/-- The world of a step of the whole system: what other threads do happens
through their own steps, so no wake-up brings news. -/
def world.still (w : world) : world := { w with put_wakes := [], queue_wakes := [] }

/-- The steps of the system around the presentation queue. -/
inductive action
  /-- the application replaces the property bag -/
  | set_properties (properties : mlt_properties)
  /-- the application calls `mlt_consumer_start` -/
  | start (factory : Option Nat) (code : Option Int)
  /-- the application calls `mlt_consumer_put_frame` -/
  | put_frame (frame : mlt_frame) (w : world)
  /-- the sink calls `mlt_consumer_rt_frame` -/
  | rt_frame (w : world)
  /-- the read-ahead thread takes one step -/
  | thread (w : world) (t : tick)
  /-- someone calls `mlt_consumer_purge` -/
  | purge
  /-- `consumer_read_ahead_stop` up to the join -/
  | stop_signal
  /-- `consumer_read_ahead_stop` from the join on -/
  | stop_join

/-- One step of the system.  A blocked call leaves the state as it is, except
that a first real-time `mlt_consumer_rt_frame` has started the read-ahead
thread before it blocks.  The sink has left `mlt_consumer_rt_frame` for good
when its `stop` returns, so no real-time call is made between the stop signal
and the join. -/
def step (this : mlt_consumer) : action → mlt_consumer
  | action.set_properties properties => { this with properties := properties }
  | action.start factory code => (mlt_consumer_start this factory code).1
  | action.put_frame frame w =>
    match mlt_consumer_put_frame this frame w.still with
    | some (next, _) => next
    | none => this
  | action.rt_frame w =>
    if this.real_time ≠ 0 ∧ this.ahead = false ∧ this.ahead_thread.isSome then this
    else
      match mlt_consumer_rt_frame this w.still with
      | some (next, _) => next
      | none =>
        if this.real_time ≠ 0 ∧ this.ahead = false then consumer_read_ahead_start this else this
  | action.thread w t => consumer_read_ahead_thread this w.still t
  | action.purge => mlt_consumer_purge this
  | action.stop_signal => if this.ahead then read_ahead_stop_signal this else this
  | action.stop_join =>
    match read_ahead_stop_join this with
    | some next => next
    | none => this

/-- The state after a sequence of steps. -/
def steps (this : mlt_consumer) (actions : List action) : mlt_consumer :=
  actions.foldl step this

/-- No read-ahead: `ahead` clear, no queued entry, no thread. -/
def idle (this : mlt_consumer) : Prop :=
  this.ahead = false ∧ this.queue = [] ∧ this.ahead_thread = none

/-- The locals of the read-ahead thread once it has read the properties. -/
def thread_locals (this : mlt_consumer) : Option read_ahead :=
  match this.ahead_thread with
  | some (thread.top l) => some l
  | some (thread.push l) => some l
  | some (thread.body l) => some l
  | some (thread.exited l) => some l
  | _ => none

/-- The invariant behind the queue bound, by the place of the thread. -/
def queue_inv (this : mlt_consumer) : Prop :=
  match this.ahead_thread with
  | none => this.ahead = false ∧ this.queue = []
  | some thread.entry => this.queue = []
  | some (thread.top l) =>
    (this.queue.length : Int) ≤ max l.buffer 0 + 1
      ∧ (this.ahead = true → (this.queue.length : Int) ≤ max l.buffer 0)
  | some (thread.push l) => (this.queue.length : Int) ≤ max l.buffer 0
  | some (thread.body l) =>
    (this.queue.length : Int) ≤ max l.buffer 0 + 1
      ∧ (this.ahead = true → (this.queue.length : Int) ≤ max l.buffer 0)
  | some (thread.exited l) =>
    this.ahead = false ∧ (this.queue.length : Int) ≤ max l.buffer 0 + 1

/-- The results of `n` successive real-time calls of the sink, in order, with
no step of another thread in between; `none` if one of them blocks. -/
def rt_frames (w : world) : Nat → mlt_consumer → Option (mlt_consumer × List (Option mlt_frame))
  | 0, this => some (this, [])
  | n + 1, this =>
    match mlt_consumer_rt_frame this w with
    | none => none
    | some (next, frame) =>
      match rt_frames w n next with
      | none => none
      | some (last, frames) => some (last, frame :: frames)

/-! ## Concrete consumers, frames and runs -/

/-- A push-mode consumer: no producer, `put_mode` 1, started with `real_time` 0. -/
def push_consumer : mlt_consumer :=
  (mlt_consumer_start
    { mlt_consumer_init none none with
      properties := mlt_properties_set_int
        (mlt_properties_set_int (mlt_consumer_init none none).properties "real_time" 0)
        "put_mode" 1 } none none).1

/-- A consumer with a producer connected, PAL defaults, not yet started. -/
def connected_consumer : mlt_consumer :=
  { mlt_consumer_init none none with producer := some 1 }

/-- A connected consumer with `buffer` 0, not yet started. -/
def connected_unbuffered : mlt_consumer :=
  { connected_consumer with
    properties := mlt_properties_set_int connected_consumer.properties "buffer" 0 }

/-- A frame at normal speed. -/
def normal_frame (addr : Nat) : mlt_frame :=
  { mlt_frame_init addr with
    properties := mlt_properties_set_int mlt_properties_new "_speed" 1 }

/-- A frame at double speed. -/
def trick_frame (addr : Nat) : mlt_frame :=
  { mlt_frame_init addr with
    properties := mlt_properties_set_int mlt_properties_new "_speed" 2 }

/-- A frame that arrives with `consumer_deinterlace` already 1. -/
def deinterlaced_frame (addr : Nat) : mlt_frame :=
  { mlt_frame_init addr with
    properties := mlt_properties_set_int mlt_properties_new "consumer_deinterlace" 1 }

/-- The world whose upstream service delivers `frame`. -/
def world.delivering (frame : mlt_frame) : world :=
  { world.quiet with upstream := some frame }

/-- An iteration on an empty queue whose acquisition and processing take
50 ms each. -/
def slow_tick : tick := { wait := 0, acquire := 50000, process := 50000, depth := 0 }

/-- An iteration that takes no time, on an empty queue. -/
def quick_tick : tick := { wait := 0, acquire := 0, process := 0, depth := 0 }

/-- The locals after the bootstrap on `normal_frame 0` with the default
properties. -/
def boot : read_ahead :=
  { frame := some
      { addr := 0,
        properties := mlt_properties_set_int (normal_frame 0).properties "rendered" 1,
        image := true, audio := [0] },
    video_off := 0, audio_off := 0, buffer := 26, counter := 1, count := 1, skipped := 0,
    time_wait := 0, time_frame := 0, time_process := 0, skip_next := 0 }

/-- Six slow normal-speed frames, numbered 2 to 7. -/
def six_slow : List (tick × mlt_frame) :=
  [(slow_tick, normal_frame 2), (slow_tick, normal_frame 3), (slow_tick, normal_frame 4),
   (slow_tick, normal_frame 5), (slow_tick, normal_frame 6), (slow_tick, normal_frame 7)]

/-- Five slow normal-speed frames and a sixth whose processing takes no time. -/
def five_slow : List (tick × mlt_frame) :=
  [(slow_tick, normal_frame 2), (slow_tick, normal_frame 3), (slow_tick, normal_frame 4),
   (slow_tick, normal_frame 5), (slow_tick, normal_frame 6)]

/-- Two iterations that acquire nothing, then one that acquires a frame. -/
def starved_run : List (tick × Option mlt_frame) :=
  [(quick_tick, none), (quick_tick, none), (quick_tick, some (normal_frame 3))]

/-- A run of a consumer with `buffer` 0: start; the sink's first real-time
call starts the thread and blocks; the thread queues frame 1; the sink's call
returns with it; the thread queues frame 2, acquires frame 3 and blocks on the
full queue; then the stop signal, and the next step of the thread. -/
def stop_race : List action :=
  [ action.start none none,
    action.rt_frame world.quiet,
    action.thread (world.delivering (normal_frame 1)) quick_tick,
    action.thread world.quiet quick_tick,
    action.thread world.quiet quick_tick,
    action.thread (world.delivering (normal_frame 2)) quick_tick,
    action.rt_frame world.quiet,
    action.thread world.quiet quick_tick,
    action.thread world.quiet quick_tick,
    action.thread (world.delivering (normal_frame 3)) quick_tick,
    action.thread world.quiet quick_tick,
    action.thread world.quiet quick_tick,
    action.stop_signal,
    action.thread world.quiet quick_tick ]

/-- A start, the first real-time call, three steps of the thread (one frame
queued), and then the application clears the `real_time` property. -/
def real_time_cleared : List action :=
  [ action.start none none,
    action.rt_frame world.quiet,
    action.thread (world.delivering (normal_frame 1)) quick_tick,
    action.thread world.quiet quick_tick,
    action.thread world.quiet quick_tick,
    action.set_properties
      (mlt_properties_set_int (mlt_consumer_init none none).properties "real_time" 0) ]

/-- A connected consumer whose read-ahead thread has queued frame 1 and is
about to acquire the next frame. -/
def awaiting_acquire : mlt_consumer :=
  steps connected_consumer
    [ action.start none none,
      action.rt_frame world.quiet,
      action.thread (world.delivering (normal_frame 1)) quick_tick,
      action.thread world.quiet quick_tick,
      action.thread world.quiet quick_tick ]

/-! ## Theorems -/

/-! ### Property bags -/

@[simp] theorem get_int_set_int (p : mlt_properties) (k j : String) (v : Int) :
    mlt_properties_get_int (mlt_properties_set_int p k v) j
      = if j = k then v else mlt_properties_get_int p j := rfl

@[simp] theorem get_int_set_double (p : mlt_properties) (k j : String) (v : Rat) :
    mlt_properties_get_int (mlt_properties_set_double p k v) j = mlt_properties_get_int p j := rfl

@[simp] theorem get_int_set (p : mlt_properties) (k j : String) (v : Option String) :
    mlt_properties_get_int (mlt_properties_set p k v) j = mlt_properties_get_int p j := rfl

@[simp] theorem get_int_set_data (p : mlt_properties) (k j : String) (v : Option Nat) :
    mlt_properties_get_int (mlt_properties_set_data p k v) j = mlt_properties_get_int p j := rfl

@[simp] theorem get_double_set_double (p : mlt_properties) (k j : String) (v : Rat) :
    mlt_properties_get_double (mlt_properties_set_double p k v) j
      = if j = k then v else mlt_properties_get_double p j := rfl

@[simp] theorem get_double_set_int (p : mlt_properties) (k j : String) (v : Int) :
    mlt_properties_get_double (mlt_properties_set_int p k v) j
      = mlt_properties_get_double p j := rfl

@[simp] theorem get_double_set (p : mlt_properties) (k j : String) (v : Option String) :
    mlt_properties_get_double (mlt_properties_set p k v) j = mlt_properties_get_double p j := rfl

@[simp] theorem get_double_set_data (p : mlt_properties) (k j : String) (v : Option Nat) :
    mlt_properties_get_double (mlt_properties_set_data p k v) j
      = mlt_properties_get_double p j := rfl

@[simp] theorem get_set (p : mlt_properties) (k j : String) (v : Option String) :
    mlt_properties_get (mlt_properties_set p k v) j
      = if j = k then v else mlt_properties_get p j := rfl

@[simp] theorem get_set_int (p : mlt_properties) (k j : String) (v : Int) :
    mlt_properties_get (mlt_properties_set_int p k v) j = mlt_properties_get p j := rfl

@[simp] theorem get_set_double (p : mlt_properties) (k j : String) (v : Rat) :
    mlt_properties_get (mlt_properties_set_double p k v) j = mlt_properties_get p j := rfl

@[simp] theorem get_set_data (p : mlt_properties) (k j : String) (v : Option Nat) :
    mlt_properties_get (mlt_properties_set_data p k v) j = mlt_properties_get p j := rfl

@[simp] theorem get_int_new (j : String) : mlt_properties_get_int mlt_properties_new j = 0 := rfl

/-! ### The stages of a loop iteration -/

/-- An iteration that acquired nothing ends at the `continue` of line 394. -/
theorem read_ahead_loop_none (l : read_ahead) (t : tick) :
    read_ahead_loop l t none = loop_acquire l t none := rfl

/-- An iteration that acquired a frame is the composition of its stages. -/
theorem read_ahead_loop_some (l : read_ahead) (t : tick) (frame : mlt_frame) :
    read_ahead_loop l t (some frame)
      = { loop_decide (loop_audio (loop_image (loop_count (loop_acquire l t (some frame)) frame)
            frame).1 (loop_image (loop_count (loop_acquire l t (some frame)) frame) frame).2).1 t
          with frame := some (loop_audio (loop_image (loop_count (loop_acquire l t (some frame))
            frame) frame).1 (loop_image (loop_count (loop_acquire l t (some frame)) frame)
            frame).2).2 } := rfl

theorem loop_decide_eq (l : read_ahead) (t : tick) :
    loop_decide l t
      = if (t.depth : Int) ≤ 5
            ∧ Int.tdiv (l.time_wait + l.time_frame + (l.time_process + t.process)) l.count > 40000
        then { l with time_process := l.time_process + t.process, skip_next := 1 }
        else { l with time_process := l.time_process + t.process } := rfl

theorem loop_count_eq (l : read_ahead) (frame : mlt_frame) :
    loop_count l frame
      = if mlt_properties_get_int frame.properties "_speed" ≠ 1 then
          { l with skipped := 0, time_frame := 0, time_process := 0, time_wait := 0, count := 1,
                   skip_next := 0 }
        else { l with count := l.count + 1 } := rfl

theorem loop_image_eq (l : read_ahead) (frame : mlt_frame) :
    loop_image l frame
      = if l.skip_next = 0 then
          (l, { (if l.video_off = 0 then { frame with image := true } else frame) with
                properties := mlt_properties_set_int frame.properties "rendered" 1 })
        else if l.skipped + 1 > 5 then
          ({ l with skipped := 0, time_frame := 0, time_process := 0, time_wait := 0, count := 1,
                    skip_next := 0 }, frame)
        else ({ l with skipped := l.skipped + 1, skip_next := 0 }, frame) := by
  unfold loop_image
  dsimp only
  split_ifs <;> rfl

theorem loop_audio_eq (l : read_ahead) (frame : mlt_frame) :
    loop_audio l frame
      = if l.audio_off = 0 then
          ({ l with counter := l.counter + 1 }, { frame with audio := frame.audio ++ [l.counter] })
        else (l, frame) := rfl

/-- After lines 410-433 `skip_next` is 0 on either branch. -/
theorem loop_image_skip_next (l : read_ahead) (frame : mlt_frame) :
    (loop_image l frame).1.skip_next = 0 := by
  unfold loop_image
  dsimp only
  split_ifs <;> simp_all

theorem loop_image_count_pos (l : read_ahead) (frame : mlt_frame) (h : 1 ≤ l.count) :
    1 ≤ (loop_image l frame).1.count := by
  unfold loop_image
  dsimp only
  split_ifs <;> simp_all

theorem loop_count_count_pos (l : read_ahead) (frame : mlt_frame) (h : 0 ≤ l.count) :
    1 ≤ (loop_count l frame).count := by
  unfold loop_count
  dsimp only
  split_ifs
  · exact le_refl _
  · show 1 ≤ l.count + 1
    omega

theorem loop_audio_fst (l : read_ahead) (frame : mlt_frame) :
    (loop_audio l frame).1
      = { l with counter := if l.audio_off = 0 then l.counter + 1 else l.counter } := by
  unfold loop_audio
  split_ifs <;> rfl

theorem loop_acquire_count (l : read_ahead) (t : tick) (frame : Option mlt_frame) :
    (loop_acquire l t frame).count = l.count := rfl

theorem loop_decide_count (l : read_ahead) (t : tick) : (loop_decide l t).count = l.count := by
  rw [loop_decide_eq]
  split_ifs <;> rfl

theorem loop_decide_skip_next (l : read_ahead) (t : tick) (h : l.skip_next = 0) :
    ((loop_decide l t).skip_next = 1 ↔
      ((t.depth : Int) ≤ 5 ∧ Int.tdiv ((loop_decide l t).time_wait + (loop_decide l t).time_frame
          + (loop_decide l t).time_process) (loop_decide l t).count > 40000)) := by
  rw [loop_decide_eq]
  split_ifs with hc
  · simpa using hc
  · simp only [h]
    constructor
    · intro h0; exact absurd h0 (by decide)
    · intro h1; exact absurd h1 hc

theorem read_ahead_loop_buffer (l : read_ahead) (t : tick) (frame : Option mlt_frame) :
    (read_ahead_loop l t frame).buffer = l.buffer := by
  cases frame with
  | none => rfl
  | some frame =>
    unfold read_ahead_loop loop_decide loop_audio loop_image loop_count loop_acquire
    dsimp only
    split_ifs <;> rfl

/-- The audio side of one iteration with the audio on: switches kept, counter
advanced by one, the frame's audio fetched with the old counter. -/
theorem read_ahead_loop_audio (l : read_ahead) (t : tick) (frame : mlt_frame)
    (h : l.audio_off = 0) :
    (read_ahead_loop l t (some frame)).audio_off = 0
    ∧ (read_ahead_loop l t (some frame)).counter = l.counter + 1
    ∧ ∃ shown, (read_ahead_loop l t (some frame)).frame = some shown
        ∧ shown.audio = frame.audio ++ [l.counter] := by
  rw [read_ahead_loop_some, loop_decide_eq, loop_audio_eq, loop_image_eq, loop_count_eq]
  simp only [loop_acquire]
  split_ifs <;> simp_all

theorem read_ahead_trace_cons (l : read_ahead) (t : tick) (frame : Option mlt_frame)
    (rest : List (tick × Option mlt_frame)) :
    read_ahead_trace l ((t, frame) :: rest)
      = (read_ahead_loop l t frame).frame :: read_ahead_trace (read_ahead_loop l t frame) rest :=
  rfl

theorem read_ahead_run_cons (l : read_ahead) (t : tick) (frame : Option mlt_frame)
    (rest : List (tick × Option mlt_frame)) :
    read_ahead_run l ((t, frame) :: rest) = read_ahead_run (read_ahead_loop l t frame) rest := rfl

theorem audio_fetches_some (frame : mlt_frame) (rest : List (Option mlt_frame)) :
    audio_fetches (some frame :: rest) = frame.audio ++ audio_fetches rest := rfl

theorem acquired_some (t : tick) (frame : mlt_frame) (rest : List (tick × Option mlt_frame)) :
    acquired ((t, some frame) :: rest) = acquired rest + 1 := rfl

/-- From any locals with the audio on, a run fetches with the successive
counters, one per iteration that acquired a frame. -/
theorem audio_counter_run (ins : List (tick × Option mlt_frame)) :
    ∀ l : read_ahead, l.audio_off = 0 → fresh ins = true →
      audio_fetches (read_ahead_trace l ins)
          = (List.range (acquired ins)).map (fun (i : Nat) => l.counter + (i : Int))
      ∧ (read_ahead_run l ins).counter = l.counter + (acquired ins : Int) := by
  induction ins with
  | nil => intro l _ _; simp [read_ahead_trace, audio_fetches, acquired, read_ahead_run]
  | cons a rest ih =>
    intro l hoff hfresh
    obtain ⟨t, frame⟩ := a
    cases frame with
    | none =>
      have hl : (read_ahead_loop l t none).audio_off = 0 := hoff
      have hc : (read_ahead_loop l t none).counter = l.counter := rfl
      have := ih (read_ahead_loop l t none) hl (by simpa [fresh] using hfresh)
      rw [hc] at this
      simpa [read_ahead_trace, audio_fetches, acquired, read_ahead_run, read_ahead_loop_none,
        loop_acquire] using this
    | some frame =>
      simp only [fresh, Bool.and_eq_true, List.isEmpty_iff] at hfresh
      obtain ⟨hoff1, hc1, shown, hs, ha⟩ := read_ahead_loop_audio l t frame hoff
      obtain ⟨ih1, ih2⟩ := ih (read_ahead_loop l t (some frame)) hoff1 hfresh.2
      constructor
      · rw [read_ahead_trace_cons, hs, audio_fetches_some, ha, hfresh.1, ih1, hc1, acquired_some,
          List.range_succ_eq_map]
        simp [Function.comp_def, add_assoc, add_comm]
        intro a _; ring
      · rw [read_ahead_run_cons, ih2, hc1, acquired_some]
        push_cast; ring

/-- One skipped normal-speed frame below the limit: `skipped` and `count` go up
by one and nothing is reset. -/
theorem skip_step_below (l : read_ahead) (t : tick) (frame : mlt_frame)
    (hspeed : mlt_properties_get_int frame.properties "_speed" = 1) (hskip : l.skip_next ≠ 0)
    (hlim : l.skipped + 1 ≤ 5) :
    (read_ahead_loop l t (some frame)).skipped = l.skipped + 1
    ∧ (read_ahead_loop l t (some frame)).count = l.count + 1
    ∧ (read_ahead_loop l t (some frame)).time_wait = l.time_wait + t.wait
    ∧ (read_ahead_loop l t (some frame)).time_frame = l.time_frame + t.acquire
    ∧ (read_ahead_loop l t (some frame)).time_process = l.time_process + t.process := by
  rw [read_ahead_loop_some, loop_decide_eq, loop_audio_eq, loop_image_eq, loop_count_eq]
  have h5 : ¬ (l.skipped + 1 > 5) := by omega
  simp only [loop_acquire, hspeed, ne_eq, not_true_eq_false, if_false, hskip, h5]
  split_ifs <;> simp

/-- The skipped normal-speed frame that brings `skipped` above 5: everything
is reset, and the skip decision that follows sees this iteration's processing
time alone. -/
theorem skip_step_limit (l : read_ahead) (t : tick) (frame : mlt_frame)
    (hspeed : mlt_properties_get_int frame.properties "_speed" = 1) (hskip : l.skip_next ≠ 0)
    (hlim : 5 < l.skipped + 1) :
    (read_ahead_loop l t (some frame)).skipped = 0
    ∧ (read_ahead_loop l t (some frame)).count = 1
    ∧ (read_ahead_loop l t (some frame)).time_wait = 0
    ∧ (read_ahead_loop l t (some frame)).time_frame = 0
    ∧ (read_ahead_loop l t (some frame)).time_process = t.process
    ∧ (read_ahead_loop l t (some frame)).skip_next
        = (if (t.depth : Int) ≤ 5 ∧ t.process > 40000 then 1 else 0)
    ∧ (read_ahead_loop l t (some frame)).video_off = l.video_off := by
  rw [read_ahead_loop_some, loop_decide_eq, loop_audio_eq, loop_image_eq, loop_count_eq]
  have h5 : l.skipped + 1 > 5 := hlim
  simp only [loop_acquire, hspeed, ne_eq, not_true_eq_false, if_false, hskip, h5, if_true]
  split_ifs <;> simp_all [Int.tdiv_one]

/-- A frame that arrives while `skip_next` is clear is not skipped. -/
theorem render_step (l : read_ahead) (t : tick) (frame : mlt_frame) (h : l.skip_next = 0) :
    ∃ shown, (read_ahead_loop l t (some frame)).frame = some shown
      ∧ shown.addr = frame.addr
      ∧ mlt_properties_get_int shown.properties "rendered" = 1
      ∧ (l.video_off = 0 → shown.image = true) := by
  rw [read_ahead_loop_some, loop_audio_eq, loop_image_eq, loop_count_eq]
  simp only [loop_acquire]
  refine ⟨_, rfl, ?_⟩
  split_ifs <;> simp_all

/-- A run of skipped frames that stays within the limit only counts up. -/
theorem skipped_run_below (ins : List (tick × mlt_frame)) :
    ∀ l : read_ahead, skipped_run l ins = true → l.skipped + (ins.length : Int) ≤ 5 →
      (read_ahead_run l (feed ins)).skipped = l.skipped + (ins.length : Int)
      ∧ (read_ahead_run l (feed ins)).count = l.count + (ins.length : Int)
      ∧ (read_ahead_run l (feed ins)).video_off = l.video_off := by
  induction ins with
  | nil => intro l _ _; simp [feed, read_ahead_run]
  | cons a rest ih =>
    intro l hrun hlen
    obtain ⟨t, frame⟩ := a
    simp only [skipped_run, Bool.and_eq_true, decide_eq_true_eq] at hrun
    obtain ⟨⟨hspeed, hskip⟩, hrest⟩ := hrun
    simp only [List.length_cons, Nat.cast_add, Nat.cast_one] at hlen
    obtain ⟨h1, h2, -⟩ := skip_step_below l t frame hspeed hskip (by omega)
    have hv : (read_ahead_loop l t (some frame)).video_off = l.video_off := by
      rw [read_ahead_loop_some, loop_decide_eq, loop_audio_eq, loop_image_eq, loop_count_eq]
      simp only [loop_acquire]
      split_ifs <;> rfl
    obtain ⟨i1, i2, i3⟩ := ih (read_ahead_loop l t (some frame)) hrest (by rw [h1]; omega)
    refine ⟨?_, ?_, ?_⟩
    · show (read_ahead_run (read_ahead_loop l t (some frame)) (feed rest)).skipped = _
      rw [i1, h1]; simp only [List.length_cons, Nat.cast_add, Nat.cast_one]; ring
    · show (read_ahead_run (read_ahead_loop l t (some frame)) (feed rest)).count = _
      rw [i2, h2]; simp only [List.length_cons, Nat.cast_add, Nat.cast_one]; ring
    · show (read_ahead_run (read_ahead_loop l t (some frame)) (feed rest)).video_off = _
      rw [i3, hv]

theorem skipped_run_append (xs ys : List (tick × mlt_frame)) :
    ∀ l : read_ahead, skipped_run l (xs ++ ys)
      = (skipped_run l xs && skipped_run (read_ahead_run l (feed xs)) ys) := by
  induction xs with
  | nil => intro l; simp [skipped_run, feed, read_ahead_run]
  | cons a rest ih =>
    intro l
    obtain ⟨t, frame⟩ := a
    have hfeed : read_ahead_run l (feed ((t, frame) :: rest))
        = read_ahead_run (read_ahead_loop l t (some frame)) (feed rest) := rfl
    have happ : ((t, frame) :: rest) ++ ys = (t, frame) :: (rest ++ ys) := rfl
    rw [happ, hfeed]
    simp only [skipped_run, ih, Bool.and_assoc]

theorem read_ahead_run_append (xs ys : List (tick × Option mlt_frame)) :
    ∀ l : read_ahead, read_ahead_run l (xs ++ ys) = read_ahead_run (read_ahead_run l xs) ys := by
  induction xs with
  | nil => intro l; rfl
  | cons a rest ih => intro l; obtain ⟨t, frame⟩ := a; exact ih _

/-! ### The push slot -/

theorem put_frame_wait_empty (stopped : Bool) (wakes : List put_wake) :
    put_frame_wait stopped none wakes = some none := by
  cases wakes <;> simp [put_frame_wait]

theorem get_frame_wait_full (stopped : Bool) (frame : mlt_frame) (wakes : List put_wake) :
    get_frame_wait stopped (some frame) wakes = some (some frame) := by
  cases wakes <;> simp [get_frame_wait]

/-- The wait of `mlt_consumer_put_frame` ends exactly when the entry state or
one of the wake-ups shows the consumer stopped or the slot empty. -/
theorem put_frame_wait_isSome (wakes : List put_wake) :
    ∀ (stopped : Bool) (put : Option mlt_frame),
      (put_frame_wait stopped put wakes).isSome
        = ((stopped || put.isNone) || wakes.any fun w => w.stopped || w.put.isNone) := by
  induction wakes with
  | nil => intro stopped put; cases stopped <;> cases put <;> simp [put_frame_wait]
  | cons w ws ih =>
    intro stopped put
    cases stopped <;> cases put <;> simp [put_frame_wait, ih]

/-- What the enrichment of lines 277-296 leaves on the frame. -/
theorem get_frame_enrich_spec (properties : mlt_properties) (F : mlt_frame) :
    (get_frame_enrich properties F).addr = F.addr
    ∧ (mlt_properties_get_int properties "progressive" ≠ 0
          ∨ mlt_properties_get_int properties "deinterlace" ≠ 0 →
        mlt_properties_get_int (get_frame_enrich properties F).properties
          "consumer_deinterlace" = 1)
    ∧ (mlt_properties_get_int properties "progressive" = 0
          ∧ mlt_properties_get_int properties "deinterlace" = 0 →
        mlt_properties_get_int (get_frame_enrich properties F).properties "consumer_deinterlace"
          = mlt_properties_get_int F.properties "consumer_deinterlace")
    ∧ mlt_properties_get (get_frame_enrich properties F).properties "rescale.interp"
        = mlt_properties_get properties "rescale"
    ∧ mlt_properties_get_double (get_frame_enrich properties F).properties
        "consumer_aspect_ratio" = mlt_properties_get_double properties "aspect_ratio" := by
  refine ⟨rfl, ?_, ?_, ?_, ?_⟩
  · intro h
    unfold get_frame_enrich
    dsimp only
    rw [if_pos h]
    simp
  · intro h
    have hn : ¬ (mlt_properties_get_int properties "progressive" ≠ 0
        ∨ mlt_properties_get_int properties "deinterlace" ≠ 0) := by
      rw [h.1, h.2]; simp
    unfold get_frame_enrich
    dsimp only
    rw [if_neg hn]
    split_ifs <;> simp
  · unfold get_frame_enrich
    dsimp only
    split_ifs <;> simp
  · unfold get_frame_enrich
    dsimp only
    split_ifs <;> simp

/-! ### What a call leaves alone -/

/-- `mlt_consumer_get_frame` works on the push slot alone. -/
theorem get_frame_fields (this next : mlt_consumer) (w : world) (frame : Option mlt_frame)
    (h : mlt_consumer_get_frame this w = some (next, frame)) :
    next.ahead = this.ahead ∧ next.queue = this.queue ∧ next.ahead_thread = this.ahead_thread
      ∧ next.properties = this.properties ∧ next.real_time = this.real_time := by
  unfold mlt_consumer_get_frame at h
  dsimp only at h
  split_ifs at h with h1 h2
  · cases hw : get_frame_wait w.stopped this.put w.put_wakes with
    | none => simp [hw] at h
    | some slot =>
      simp only [hw, Option.some.injEq, Prod.mk.injEq] at h
      obtain ⟨rfl, -⟩ := h
      exact ⟨rfl, rfl, rfl, rfl, rfl⟩
  · simp only [Option.some.injEq, Prod.mk.injEq] at h
    obtain ⟨rfl, -⟩ := h
    exact ⟨rfl, rfl, rfl, rfl, rfl⟩
  · simp only [Option.some.injEq, Prod.mk.injEq] at h
    obtain ⟨rfl, -⟩ := h
    exact ⟨rfl, rfl, rfl, rfl, rfl⟩

/-- `mlt_consumer_put_frame` works on the push slot alone. -/
theorem put_frame_fields (this next : mlt_consumer) (w : world) (frame : mlt_frame) (r : Int)
    (h : mlt_consumer_put_frame this frame w = some (next, r)) :
    next.ahead = this.ahead ∧ next.queue = this.queue ∧ next.ahead_thread = this.ahead_thread
      ∧ next.properties = this.properties ∧ next.real_time = this.real_time := by
  unfold mlt_consumer_put_frame at h
  dsimp only at h
  split_ifs at h with h1
  · cases hw : put_frame_wait w.stopped this.put w.put_wakes with
    | none => simp [hw] at h
    | some slot =>
      simp only [hw] at h
      split_ifs at h <;>
        · simp only [Option.some.injEq, Prod.mk.injEq] at h
          obtain ⟨rfl, -⟩ := h
          exact ⟨rfl, rfl, rfl, rfl, rfl⟩
  · simp only [Option.some.injEq, Prod.mk.injEq] at h
    obtain ⟨rfl, -⟩ := h
    exact ⟨rfl, rfl, rfl, rfl, rfl⟩

theorem mlt_frame_close_fields (this : mlt_consumer) (frame : Option mlt_frame) :
    (mlt_frame_close this frame).ahead = this.ahead
      ∧ (mlt_frame_close this frame).queue = this.queue
      ∧ (mlt_frame_close this frame).ahead_thread = this.ahead_thread
      ∧ (mlt_frame_close this frame).properties = this.properties
      ∧ (mlt_frame_close this frame).real_time = this.real_time := by
  cases frame <;> exact ⟨rfl, rfl, rfl, rfl, rfl⟩

theorem queue_wipe_fields (this : mlt_consumer) :
    (queue_wipe this).ahead = this.ahead ∧ (queue_wipe this).queue = []
      ∧ (queue_wipe this).ahead_thread = this.ahead_thread
      ∧ (queue_wipe this).properties = this.properties
      ∧ (queue_wipe this).real_time = this.real_time := by
  have key : ∀ (frames : List (Option mlt_frame)) (c : mlt_consumer),
      (frames.foldl mlt_frame_close c).ahead = c.ahead
        ∧ (frames.foldl mlt_frame_close c).ahead_thread = c.ahead_thread
        ∧ (frames.foldl mlt_frame_close c).properties = c.properties
        ∧ (frames.foldl mlt_frame_close c).real_time = c.real_time := by
    intro frames
    induction frames with
    | nil => intro c; exact ⟨rfl, rfl, rfl, rfl⟩
    | cons f rest ih =>
      intro c
      obtain ⟨h1, h2, h3, h4⟩ := ih (mlt_frame_close c f)
      obtain ⟨g1, -, g2, g3, g4⟩ := mlt_frame_close_fields c f
      exact ⟨h1.trans g1, h2.trans g2, h3.trans g3, h4.trans g4⟩
  obtain ⟨h1, h2, h3, h4⟩ := key this.queue.reverse this
  exact ⟨h1, rfl, h2, h3, h4⟩

/-! ### The invariant of the queue -/

/-- The invariant depends on `ahead`, the queue and the thread only. -/
theorem queue_inv_congr (this next : mlt_consumer) (h1 : next.ahead = this.ahead)
    (h2 : next.queue = this.queue) (h3 : next.ahead_thread = this.ahead_thread)
    (h : queue_inv this) : queue_inv next := by
  unfold queue_inv at *
  rw [h1, h2, h3]
  exact h

/-- A step of the read-ahead thread keeps the invariant. -/
theorem queue_inv_thread (this : mlt_consumer) (w : world) (t : tick) (h : queue_inv this) :
    queue_inv (consumer_read_ahead_thread this w t) := by
  unfold consumer_read_ahead_thread
  cases hth : this.ahead_thread with
  | none => simpa using h
  | some th =>
    cases th with
    | entry =>
      dsimp only
      cases hg : mlt_consumer_get_frame this w with
      | none => exact h
      | some r =>
        obtain ⟨next, frame⟩ := r
        dsimp only
        cases hb : read_ahead_bootstrap this.properties frame with
        | none => exact h
        | some l =>
          dsimp only
          obtain ⟨-, g2, -, -, -⟩ := get_frame_fields this next w frame hg
          have hq : this.queue = [] := by
            unfold queue_inv at h; rw [hth] at h; exact h
          unfold queue_inv
          simp only [g2, hq, List.length_nil, Nat.cast_zero]
          constructor
          · have := le_max_right l.buffer 0; omega
          · intro _; exact le_max_right _ _
    | top l =>
      dsimp only
      unfold queue_inv at h; rw [hth] at h
      by_cases ha : this.ahead = true
      · simp only [ha, if_true]
        unfold queue_inv
        exact h.2 ha
      · simp only [ha, Bool.false_eq_true, if_false]
        obtain ⟨g1, g2, -, -, -⟩ := mlt_frame_close_fields this l.frame
        unfold queue_inv
        simp only [g1, g2]
        exact ⟨by simpa using ha, h.1⟩
    | push l =>
      dsimp only
      unfold queue_inv at h; rw [hth] at h
      split_ifs with hc
      · unfold queue_inv; rw [hth]; exact h
      · unfold queue_inv
        simp only [List.length_append, List.length_singleton, Nat.cast_add, Nat.cast_one]
        refine ⟨by omega, ?_⟩
        intro ha
        simp only [ha, Bool.true_and, decide_eq_true_eq, not_le] at hc
        have := le_max_left l.buffer 0
        omega
    | body l =>
      dsimp only
      cases hg : mlt_consumer_get_frame this w with
      | none => exact h
      | some r =>
        obtain ⟨next, frame⟩ := r
        dsimp only
        obtain ⟨g1, g2, -, -, -⟩ := get_frame_fields this next w frame hg
        unfold queue_inv at h ⊢; rw [hth] at h
        simp only [g1, g2, read_ahead_loop_buffer]
        exact h
    | exited l => exact h

/-- `consumer_read_ahead_start` establishes the invariant. -/
theorem queue_inv_start (this : mlt_consumer) : queue_inv (consumer_read_ahead_start this) := by
  unfold queue_inv consumer_read_ahead_start
  rfl

theorem rt_frame_wait_nil (size : Int) (ahead : Bool) (queue : List (Option mlt_frame))
    (found : queue_wake) (h : rt_frame_wait size ahead queue [] = some found) :
    found.ahead = ahead ∧ found.queue = queue := by
  unfold rt_frame_wait at h
  split_ifs at h
  simp only [Option.some.injEq] at h
  subst h
  exact ⟨rfl, rfl⟩

/-- Taking entries off the queue keeps the invariant. -/
theorem queue_inv_shrink (this next : mlt_consumer) (h1 : next.ahead = this.ahead)
    (h2 : next.queue.length ≤ this.queue.length) (h3 : next.ahead_thread = this.ahead_thread)
    (h4 : this.queue = [] → next.queue = []) (h : queue_inv this) : queue_inv next := by
  have hl : (next.queue.length : Int) ≤ (this.queue.length : Int) := by exact_mod_cast h2
  unfold queue_inv at *
  rw [h1, h3]
  cases hth : this.ahead_thread with
  | none => rw [hth] at h; exact ⟨h.1, h4 h.2⟩
  | some th =>
    rw [hth] at h
    cases th with
    | entry => exact h4 h
    | top l => exact ⟨by have := h.1; omega, fun ha => by have := h.2 ha; omega⟩
    | push l => dsimp only at h ⊢; omega
    | body l => exact ⟨by have := h.1; omega, fun ha => by have := h.2 ha; omega⟩
    | exited l => exact ⟨h.1, by have := h.2; omega⟩

/-- A completed `mlt_consumer_rt_frame` keeps the invariant. -/
theorem queue_inv_rt_frame (this next : mlt_consumer) (w : world) (frame : Option mlt_frame)
    (hcall : mlt_consumer_rt_frame this w.still = some (next, frame)) (h : queue_inv this) :
    queue_inv next := by
  unfold mlt_consumer_rt_frame at hcall
  by_cases hreal : this.real_time ≠ 0
  · rw [if_pos hreal] at hcall
    dsimp only at hcall
    by_cases ha : this.ahead = false
    · rw [if_pos ha] at hcall
      cases hw : rt_frame_wait (rt_frame_size this) (consumer_read_ahead_start this).ahead
          (consumer_read_ahead_start this).queue (world.still w).queue_wakes with
      | none => simp [hw] at hcall
      | some found =>
        simp only [hw, Option.some.injEq, Prod.mk.injEq] at hcall
        obtain ⟨rfl, -⟩ := hcall
        obtain ⟨f1, f2⟩ := rt_frame_wait_nil _ _ _ _ hw
        unfold queue_inv
        simp only [consumer_read_ahead_start, f2, List.tail_nil]
    · rw [if_neg ha] at hcall
      cases hw : rt_frame_wait (rt_frame_size this) this.ahead this.queue
          (world.still w).queue_wakes with
      | none => simp [hw] at hcall
      | some found =>
        simp only [hw, Option.some.injEq, Prod.mk.injEq] at hcall
        obtain ⟨rfl, -⟩ := hcall
        obtain ⟨f1, f2⟩ := rt_frame_wait_nil _ _ _ _ hw
        refine queue_inv_shrink this _ f1 ?_ rfl ?_ h
        · simp only [f2, List.length_tail]; omega
        · intro hq; simp only [f2, hq, List.tail_nil]
  · rw [if_neg hreal] at hcall
    cases hg : mlt_consumer_get_frame this w.still with
    | none => simp [hg] at hcall
    | some r =>
      obtain ⟨c, f⟩ := r
      simp only [hg, Option.some.injEq, Prod.mk.injEq] at hcall
      obtain ⟨rfl, -⟩ := hcall
      obtain ⟨g1, g2, g3, -, -⟩ := get_frame_fields this c w.still f hg
      exact queue_inv_congr this c g1 g2 g3 h

theorem step_put_frame (this : mlt_consumer) (frame : mlt_frame) (w : world) :
    step this (action.put_frame frame w)
      = match mlt_consumer_put_frame this frame w.still with
        | some (next, _) => next
        | none => this := rfl

theorem step_rt_frame (this : mlt_consumer) (w : world) :
    step this (action.rt_frame w)
      = if this.real_time ≠ 0 ∧ this.ahead = false ∧ this.ahead_thread.isSome then this
        else
          match mlt_consumer_rt_frame this w.still with
          | some (next, _) => next
          | none =>
            if this.real_time ≠ 0 ∧ this.ahead = false then consumer_read_ahead_start this
            else this := rfl

theorem step_stop_signal (this : mlt_consumer) :
    step this action.stop_signal = if this.ahead then read_ahead_stop_signal this else this := rfl

theorem step_stop_join (this : mlt_consumer) :
    step this action.stop_join
      = match read_ahead_stop_join this with
        | some next => next
        | none => this := rfl

/-- Every step of the system keeps the invariant. -/
theorem queue_inv_step (this : mlt_consumer) (a : action) (h : queue_inv this) :
    queue_inv (step this a) := by
  cases a with
  | set_properties properties => exact queue_inv_congr this _ rfl rfl rfl h
  | start factory code =>
    have hs : step this (action.start factory code)
        = (mlt_consumer_start this factory code).1 := rfl
    rw [hs]
    refine queue_inv_congr this _ ?_ ?_ ?_ h
    · unfold mlt_consumer_start; dsimp only
      cases code <;> exact (mlt_frame_close_fields this this.put).1
    · unfold mlt_consumer_start; dsimp only
      cases code <;> exact (mlt_frame_close_fields this this.put).2.1
    · unfold mlt_consumer_start; dsimp only
      cases code <;> exact (mlt_frame_close_fields this this.put).2.2.1
  | put_frame frame w =>
    rw [step_put_frame]
    cases hp : mlt_consumer_put_frame this frame w.still with
    | none => exact h
    | some r =>
      obtain ⟨next, code⟩ := r
      obtain ⟨g1, g2, g3, -, -⟩ := put_frame_fields this next w.still frame code hp
      exact queue_inv_congr this next g1 g2 g3 h
  | rt_frame w =>
    rw [step_rt_frame]
    by_cases hgate : this.real_time ≠ 0 ∧ this.ahead = false ∧ this.ahead_thread.isSome
    · rw [if_pos hgate]; exact h
    · rw [if_neg hgate]
      cases hr : mlt_consumer_rt_frame this w.still with
      | none =>
        dsimp only
        by_cases hfirst : this.real_time ≠ 0 ∧ this.ahead = false
        · rw [if_pos hfirst]; exact queue_inv_start this
        · rw [if_neg hfirst]; exact h
      | some r =>
        obtain ⟨next, frame⟩ := r
        exact queue_inv_rt_frame this next w frame hr h
  | thread w t => exact queue_inv_thread this w.still t h
  | purge =>
    have hs : step this action.purge = mlt_consumer_purge this := rfl
    rw [hs]
    unfold mlt_consumer_purge
    split_ifs with ha
    · obtain ⟨g1, g2, g3, -, -⟩ := queue_wipe_fields this
      refine queue_inv_shrink this _ g1 ?_ g3 (fun _ => g2) h
      rw [g2]; exact Nat.zero_le _
    · exact h
  | stop_signal =>
    rw [step_stop_signal]
    split_ifs with ha
    · unfold read_ahead_stop_signal queue_inv
      unfold queue_inv at h
      cases hth : this.ahead_thread with
      | none => rw [hth] at h; simp [ha] at h
      | some th =>
        rw [hth] at h
        cases th with
        | entry => exact h
        | top l => exact ⟨h.1, fun hf => by simp at hf⟩
        | push l => exact h
        | body l => exact ⟨h.1, fun hf => by simp at hf⟩
        | exited l => exact ⟨rfl, h.2⟩
    · exact h
  | stop_join =>
    rw [step_stop_join]
    unfold read_ahead_stop_join
    cases hth : this.ahead_thread with
    | none => exact h
    | some th =>
      cases th with
      | exited l =>
        dsimp only
        obtain ⟨g1, g2, -, -, -⟩ := queue_wipe_fields this
        unfold queue_inv at h ⊢
        rw [hth] at h
        exact ⟨g1.trans h.1, g2⟩
      | entry => exact h
      | top l => exact h
      | push l => exact h
      | body l => exact h

/-- Every sequence of steps keeps the invariant. -/
theorem queue_inv_steps (actions : List action) :
    ∀ this : mlt_consumer, queue_inv this → queue_inv (steps this actions) := by
  induction actions with
  | nil => intro this h; exact h
  | cons a rest ih => intro this h; exact ih (step this a) (queue_inv_step this a h)

/-- A consumer without read-ahead satisfies the invariant. -/
theorem queue_inv_idle (this : mlt_consumer) (h : idle this) : queue_inv this := by
  unfold queue_inv
  rw [h.2.2]
  exact ⟨h.1, h.2.1⟩

/-! ## The claims -/

/-! ### C1: the prefill size -/

/-- Every loop iteration keeps `count` at 1 or above. -/
theorem read_ahead_run_count_pos (ins : List (tick × Option mlt_frame)) :
    ∀ l : read_ahead, 1 ≤ l.count → 1 ≤ (read_ahead_run l ins).count := by
  induction ins with
  | nil => intro l h; exact h
  | cons a rest ih =>
    intro l h
    obtain ⟨t, frame⟩ := a
    rw [read_ahead_run_cons]
    apply ih
    cases frame with
    | none => exact h
    | some frame =>
      rw [read_ahead_loop_some]
      show 1 ≤ (loop_decide _ t).count
      rw [loop_decide_count, loop_audio_fst]
      exact loop_image_count_pos _ frame (loop_count_count_pos _ frame (by
        rw [loop_acquire_count]; omega))

/-- The bootstrap leaves `count` at 1 (line 349). -/
theorem read_ahead_bootstrap_count (properties : mlt_properties) (frame : Option mlt_frame)
    (l : read_ahead) (h : read_ahead_bootstrap properties frame = some l) : l.count = 1 := by
  unfold read_ahead_bootstrap at h
  dsimp only at h
  cases frame with
  | none =>
    dsimp only at h
    split_ifs at h
    simp only [Option.some.injEq] at h
    rw [← h]
  | some frame =>
    simp only [Option.some.injEq] at h
    rw [← h]

/-- C2: at the end of a loop iteration that acquired a frame, `skip_next` is 1
if and only if the queue occupancy read at the decision is at most 5 and the
truncated quotient `(time_wait + time_frame + time_process) / count` exceeds
40000, whatever the accumulators and the incoming `skip_next`; with an
occupancy above 5 `skip_next` is 0; and `count`, at least 1 on entry, is at
least 1 at the division.  It is at least 1 on entry of every iteration of every
run: the bootstrap leaves it at 1. -/
theorem skip_decision (l : read_ahead) (t : tick) (frame : mlt_frame) (hcount : 1 ≤ l.count) :
    1 ≤ (read_ahead_loop l t (some frame)).count
    ∧ ((read_ahead_loop l t (some frame)).skip_next = 1 ↔
        ((t.depth : Int) ≤ 5
          ∧ Int.tdiv ((read_ahead_loop l t (some frame)).time_wait
              + (read_ahead_loop l t (some frame)).time_frame
              + (read_ahead_loop l t (some frame)).time_process)
              (read_ahead_loop l t (some frame)).count > 40000))
    ∧ (5 < t.depth → (read_ahead_loop l t (some frame)).skip_next = 0)
    ∧ (∀ (properties : mlt_properties) (first : Option mlt_frame) (l0 : read_ahead)
        (ins : List (tick × Option mlt_frame)),
        read_ahead_bootstrap properties first = some l0 →
          1 ≤ (read_ahead_run l0 ins).count) := by
  rw [read_ahead_loop_some]
  set l1 := loop_count (loop_acquire l t (some frame)) frame with hl1
  set l2 := loop_image l1 frame with hl2
  set l3 := loop_audio l2.1 l2.2 with hl3
  have h3s : l3.1.skip_next = 0 := by
    rw [hl3, loop_audio_fst]; exact loop_image_skip_next l1 frame
  have h3c : 1 ≤ l3.1.count := by
    rw [hl3, loop_audio_fst]
    exact loop_image_count_pos l1 frame (loop_count_count_pos _ frame (by
      rw [loop_acquire_count]; omega))
  refine ⟨?_, ?_, ?_, ?_⟩
  · show 1 ≤ (loop_decide l3.1 t).count
    rw [loop_decide_count]; exact h3c
  · exact loop_decide_skip_next l3.1 t h3s
  · intro hd
    show (loop_decide l3.1 t).skip_next = 0
    rw [loop_decide_eq]
    have : ¬ ((t.depth : Int) ≤ 5) := by omega
    simp [this, h3s]
  · intro properties first l0 ins hboot
    exact read_ahead_run_count_pos ins l0
      (le_of_eq (read_ahead_bootstrap_count properties first l0 hboot).symm)

/-- C2 at the locals after the bootstrap and a slow first iteration. -/
theorem skip_decision_witness :
    1 ≤ boot.count
    ∧ 1 ≤ (read_ahead_loop boot slow_tick (some (normal_frame 1))).count
    ∧ ((read_ahead_loop boot slow_tick (some (normal_frame 1))).skip_next = 1 ↔
        ((slow_tick.depth : Int) ≤ 5
          ∧ Int.tdiv ((read_ahead_loop boot slow_tick (some (normal_frame 1))).time_wait
              + (read_ahead_loop boot slow_tick (some (normal_frame 1))).time_frame
              + (read_ahead_loop boot slow_tick (some (normal_frame 1))).time_process)
              (read_ahead_loop boot slow_tick (some (normal_frame 1))).count > 40000))
    ∧ (5 < slow_tick.depth →
        (read_ahead_loop boot slow_tick (some (normal_frame 1))).skip_next = 0) :=
  ⟨by decide, (skip_decision boot slow_tick (normal_frame 1) (by decide)).1,
    (skip_decision boot slow_tick (normal_frame 1) (by decide)).2.1,
    (skip_decision boot slow_tick (normal_frame 1) (by decide)).2.2.1⟩

/-! ### C3: the push round trip -/

/-- C3: on a consumer with no producer, `put_mode` 1, the latched `real_time`
0 and an empty push slot, `mlt_consumer_put_frame( F )` deposits `F` and the
following `mlt_consumer_rt_frame` returns that very frame (same address, image
and audio untouched), marked `rendered = 1`, with `consumer_aspect_ratio`
equal to the consumer's `aspect_ratio`, and leaves the slot empty. -/
theorem push_round_trip (this : mlt_consumer) (F : mlt_frame) (w1 w2 : world)
    (hproducer : this.producer = none)
    (hmode : mlt_properties_get_int this.properties "put_mode" = 1)
    (hreal : this.real_time = 0) (hslot : this.put = none) :
    ∃ held next G,
      mlt_consumer_put_frame this F w1 = some (held, 1)
      ∧ held.put = some F
      ∧ mlt_consumer_rt_frame held w2 = some (next, some G)
      ∧ G.addr = F.addr
      ∧ G.image = F.image ∧ G.audio = F.audio
      ∧ mlt_properties_get_int G.properties "rendered" = 1
      ∧ mlt_properties_get_double G.properties "consumer_aspect_ratio"
          = mlt_properties_get_double this.properties "aspect_ratio"
      ∧ next.put = none := by
  have hput : mlt_consumer_put_frame this F w1 = some ({ this with put := some F }, 1) := by
    unfold mlt_consumer_put_frame
    simp [hproducer, hslot, put_frame_wait_empty]
  have hmode2 : mlt_properties_get_int this.properties "put_mode" ≠ 0 := by rw [hmode]; decide
  refine ⟨{ this with put := some F }, { this with put := none },
    { get_frame_enrich this.properties (mlt_service_apply_filters w2 F) with
      properties := mlt_properties_set_int
        (get_frame_enrich this.properties (mlt_service_apply_filters w2 F)).properties
        "rendered" 1 }, hput, rfl, ?_, ?_, ?_, ?_, ?_, ?_, rfl⟩
  · unfold mlt_consumer_rt_frame mlt_consumer_get_frame
    simp [hproducer, hreal, hmode2, get_frame_wait_full]
  · unfold get_frame_enrich mlt_service_apply_filters; rfl
  · unfold get_frame_enrich mlt_service_apply_filters; rfl
  · unfold get_frame_enrich mlt_service_apply_filters; rfl
  · simp
  · unfold get_frame_enrich
    dsimp only
    split_ifs <;> simp

/-- C3 on the push-mode consumer and frame 7. -/
theorem push_round_trip_witness :
    ∃ held next G,
      mlt_consumer_put_frame push_consumer (mlt_frame_init 7) world.quiet = some (held, 1)
      ∧ held.put = some (mlt_frame_init 7)
      ∧ mlt_consumer_rt_frame held world.quiet = some (next, some G)
      ∧ G.addr = (mlt_frame_init 7).addr
      ∧ G.image = (mlt_frame_init 7).image ∧ G.audio = (mlt_frame_init 7).audio
      ∧ mlt_properties_get_int G.properties "rendered" = 1
      ∧ mlt_properties_get_double G.properties "consumer_aspect_ratio"
          = mlt_properties_get_double push_consumer.properties "aspect_ratio"
      ∧ next.put = none :=
  push_round_trip push_consumer (mlt_frame_init 7) world.quiet world.quiet rfl rfl rfl rfl

/-! ### C4: the push slot is never overwritten -/

/-- A step of the read-ahead thread leaves `ahead` and the properties alone. -/
theorem thread_step_ahead (this : mlt_consumer) (w : world) (t : tick) :
    (consumer_read_ahead_thread this w t).ahead = this.ahead := by
  unfold consumer_read_ahead_thread
  cases hth : this.ahead_thread with
  | none => rfl
  | some th =>
    cases th with
    | entry =>
      dsimp only
      cases hg : mlt_consumer_get_frame this w with
      | none => rfl
      | some r =>
        obtain ⟨next, frame⟩ := r
        dsimp only
        cases hb : read_ahead_bootstrap this.properties frame with
        | none => rfl
        | some l => exact (get_frame_fields this next w frame hg).1
    | top l =>
      dsimp only
      split_ifs
      · rfl
      · exact (mlt_frame_close_fields this l.frame).1
    | push l =>
      dsimp only
      split_ifs <;> rfl
    | body l =>
      dsimp only
      cases hg : mlt_consumer_get_frame this w with
      | none => rfl
      | some r =>
        obtain ⟨next, frame⟩ := r
        exact (get_frame_fields this next w frame hg).1
    | exited l => rfl

/-- No sequence of steps of the thread touches `ahead`. -/
theorem thread_schedule_ahead (schedule : List (world × tick)) :
    ∀ this : mlt_consumer,
      (schedule.foldl (fun c s => consumer_read_ahead_thread c s.1 s.2) this).ahead
        = this.ahead := by
  induction schedule with
  | nil => intro this; rfl
  | cons s rest ih =>
    intro this
    rw [List.foldl_cons, ih, thread_step_ahead]

/-- Where `mlt_consumer_stop` finds the `real_time` property non-zero and the
read-ahead running, its return leaves `ahead` false, the queue empty and no
thread. -/
theorem stop_drains_of_property (this next : mlt_consumer) (schedule : List (world × tick))
    (code : Int) (hprop : mlt_properties_get_int this.properties "real_time" ≠ 0)
    (hahead : this.ahead = true) (h : mlt_consumer_stop this schedule = some (next, code)) :
    next.ahead = false ∧ next.queue = [] ∧ next.ahead_thread = none := by
  unfold mlt_consumer_stop at h
  dsimp only at h
  rw [if_pos hprop] at h
  cases hs : consumer_read_ahead_stop this schedule with
  | none => simp [hs] at h
  | some c =>
    have hc : c.ahead = false ∧ c.queue = [] ∧ c.ahead_thread = none := by
      unfold consumer_read_ahead_stop at hs
      rw [if_pos hahead] at hs
      dsimp only at hs
      unfold read_ahead_stop_join at hs
      split at hs
      · simp only [Option.some.injEq] at hs
        rw [← hs]
        obtain ⟨g1, g2, -, -, -⟩ := queue_wipe_fields
          (schedule.foldl (fun c s => consumer_read_ahead_thread c s.1 s.2)
            (read_ahead_stop_signal this))
        exact ⟨g1.trans (thread_schedule_ahead schedule _), g2, rfl⟩
      · simp at hs
    simp only [hs, Option.some.injEq, Prod.mk.injEq] at h
    obtain ⟨rfl, -⟩ := h
    obtain ⟨h1, h2, h3⟩ := hc
    split_ifs
    · obtain ⟨g1, g2, g3, -, -⟩ := mlt_frame_close_fields
        { c with properties := mlt_properties_set_data c.properties "test_card_producer" none }
        c.put
      exact ⟨g1.trans h1, g2.trans h2, g3.trans h3⟩
    · exact ⟨h1, h2, h3⟩

/-- C5 fails on the code: after a start with `real_time` 1, a first real-time
call and three steps of the read-ahead thread, the application clears the
`real_time` property; `mlt_consumer_stop` then returns 0 without stopping
anything, whatever the thread does meanwhile: `ahead` is still true, the queue
still holds its entry and the thread is still there. -/
theorem stop_after_real_time_cleared :
    (steps connected_consumer real_time_cleared).real_time = 1
    ∧ mlt_properties_get_int (steps connected_consumer real_time_cleared).properties
        "real_time" = 0
    ∧ ∀ schedule : List (world × tick),
        (mlt_consumer_stop (steps connected_consumer real_time_cleared) schedule).map
          (fun r => (r.2, r.1.ahead, r.1.queue.length, r.1.ahead_thread.isSome))
          = some (0, true, 1, true) :=
  ⟨rfl, rfl, fun _ => rfl⟩

/-! ### C6: the bound of the queue -/

/-- The local `buffer` is the property `buffer` plus one (line 339). -/
theorem read_ahead_bootstrap_buffer (properties : mlt_properties) (frame : Option mlt_frame)
    (l : read_ahead) (h : read_ahead_bootstrap properties frame = some l) :
    l.buffer = mlt_properties_get_int properties "buffer" + 1 := by
  unfold read_ahead_bootstrap at h
  dsimp only at h
  cases frame with
  | none =>
    dsimp only at h
    split_ifs at h
    simp only [Option.some.injEq] at h
    rw [← h]
  | some frame =>
    simp only [Option.some.injEq] at h
    rw [← h]

/-- C6, as stated, fails: with `buffer` 0 the thread, holding frame 3, blocks
on a queue of one entry (frame 2) and its wait does not let it in; the stop
signal clears `ahead`, the woken thread leaves its wait and enqueues the frame
in hand, and the queue holds 2 entries, more than `buffer + 1 = 1`, until the
join wipes it. -/
theorem queue_overfull_after_stop_signal :
    idle connected_unbuffered
    ∧ mlt_properties_get_int connected_unbuffered.properties "buffer" = 0
    ∧ (steps connected_unbuffered (stop_race.take 12)).queue.map (Option.map fun f => f.addr)
        = [some 2]
    ∧ steps connected_unbuffered (stop_race.take 13)
        = read_ahead_stop_signal (steps connected_unbuffered (stop_race.take 12))
    ∧ (thread_locals (steps connected_unbuffered stop_race)).map (fun l => l.buffer) = some (0 + 1)
    ∧ (steps connected_unbuffered stop_race).queue.map (Option.map fun f => f.addr)
        = [some 2, some 3]
    ∧ ¬ (((steps connected_unbuffered stop_race).queue.length : Int) ≤ 0 + 1) := by
  refine ⟨⟨rfl, rfl, rfl⟩, rfl, rfl, rfl, rfl, rfl, ?_⟩
  decide

/-- C6, amended: in every state reached from a consumer without read-ahead by
steps of the thread, real-time and other calls of the sink, purges, property
changes, starts, pushes and the two halves of the stop, the queue holds at
most `max (buffer + 1) 0` entries while `ahead` is true and at most one more
once the stop has cleared `ahead`, `buffer + 1` being the local `buffer` the
thread computed from the property when it started; before the thread has read
it, and without a thread, the queue is empty. -/
theorem queue_bound (this : mlt_consumer) (actions : List action) (hidle : idle this) :
    (∀ l, thread_locals (steps this actions) = some l →
      ((steps this actions).queue.length : Int) ≤ max l.buffer 0 + 1
      ∧ ((steps this actions).ahead = true →
          ((steps this actions).queue.length : Int) ≤ max l.buffer 0))
    ∧ (thread_locals (steps this actions) = none → (steps this actions).queue = []) := by
  have hinv := queue_inv_steps actions this (queue_inv_idle this hidle)
  unfold queue_inv at hinv
  unfold thread_locals
  cases hth : (steps this actions).ahead_thread with
  | none =>
    rw [hth] at hinv
    exact ⟨fun l hl => by simp at hl, fun _ => hinv.2⟩
  | some th =>
    rw [hth] at hinv
    cases th with
    | entry => exact ⟨fun l hl => by simp at hl, fun _ => hinv⟩
    | top l =>
      refine ⟨fun l2 hl => ?_, fun hn => by simp at hn⟩
      simp only [Option.some.injEq] at hl
      subst hl
      exact hinv
    | push l =>
      refine ⟨fun l2 hl => ?_, fun hn => by simp at hn⟩
      simp only [Option.some.injEq] at hl
      subst hl
      dsimp only at hinv
      exact ⟨by omega, fun _ => hinv⟩
    | body l =>
      refine ⟨fun l2 hl => ?_, fun hn => by simp at hn⟩
      simp only [Option.some.injEq] at hl
      subst hl
      exact hinv
    | exited l =>
      refine ⟨fun l2 hl => ?_, fun hn => by simp at hn⟩
      simp only [Option.some.injEq] at hl
      subst hl
      exact ⟨hinv.2, fun ha => by rw [hinv.1] at ha; simp at ha⟩

/-- C6, amended, on the stop race with `buffer` 0: two entries, within
`max (0 + 1) 0 + 1`. -/
theorem queue_bound_witness :
    idle connected_unbuffered
    ∧ ∀ l, thread_locals (steps connected_unbuffered stop_race) = some l →
        ((steps connected_unbuffered stop_race).queue.length : Int) ≤ max l.buffer 0 + 1 :=
  ⟨⟨rfl, rfl, rfl⟩, fun l hl =>
    ((queue_bound connected_unbuffered stop_race ⟨rfl, rfl, rfl⟩).1 l hl).1⟩

/-! ### C7: trick play -/

/-- C7: in a loop iteration whose acquired frame has `_speed` other than 1,
whatever `skip_next` and the counters were, `skipped`, `time_wait`,
`time_frame` (and `time_process`, `skip_next`) are 0 and `count` is 1 before
the frame is processed, and the frame in hand at the end is that frame with
its image fetched when `video_off = 0`, its audio fetched (with the current
counter) when `audio_off = 0`, and `rendered = 1`. -/
theorem trick_play_materialised (l : read_ahead) (t : tick) (frame : mlt_frame)
    (hspeed : mlt_properties_get_int frame.properties "_speed" ≠ 1) :
    (loop_count (loop_acquire l t (some frame)) frame).skipped = 0
    ∧ (loop_count (loop_acquire l t (some frame)) frame).time_wait = 0
    ∧ (loop_count (loop_acquire l t (some frame)) frame).time_frame = 0
    ∧ (loop_count (loop_acquire l t (some frame)) frame).time_process = 0
    ∧ (loop_count (loop_acquire l t (some frame)) frame).count = 1
    ∧ (loop_count (loop_acquire l t (some frame)) frame).skip_next = 0
    ∧ ∃ shown, (read_ahead_loop l t (some frame)).frame = some shown
        ∧ shown.addr = frame.addr
        ∧ (l.video_off = 0 → shown.image = true)
        ∧ (l.audio_off = 0 → shown.audio = frame.audio ++ [l.counter])
        ∧ mlt_properties_get_int shown.properties "rendered" = 1 := by
  have hc : loop_count (loop_acquire l t (some frame)) frame
      = { loop_acquire l t (some frame) with
          skipped := 0, time_frame := 0, time_process := 0, time_wait := 0, count := 1,
          skip_next := 0 } := by
    rw [loop_count_eq, if_pos hspeed]
  refine ⟨by rw [hc], by rw [hc], by rw [hc], by rw [hc], by rw [hc], by rw [hc], ?_⟩
  rw [read_ahead_loop_some, hc, loop_image_eq]
  simp only [if_true]
  refine ⟨_, rfl, ?_, ?_, ?_, ?_⟩
  · unfold loop_audio; dsimp only; split_ifs <;> rfl
  · intro hv
    unfold loop_audio; dsimp only
    simp only [loop_acquire, hv, if_true]
    split_ifs <;> rfl
  · intro ha
    unfold loop_audio; dsimp only
    simp only [loop_acquire, ha, if_true]
    split_ifs <;> rfl
  · unfold loop_audio; dsimp only
    split_ifs <;> simp

/-- C7 on a double-speed frame that arrives while `skip_next` is set. -/
theorem trick_play_materialised_witness :
    mlt_properties_get_int (trick_frame 9).properties "_speed" ≠ 1
    ∧ ∃ shown,
        (read_ahead_loop { boot with skip_next := 1, skipped := 3 } slow_tick
          (some (trick_frame 9))).frame = some shown
        ∧ shown.addr = (trick_frame 9).addr
        ∧ ((0 : Int) = 0 → shown.image = true)
        ∧ ((0 : Int) = 0 → shown.audio = (trick_frame 9).audio ++ [1])
        ∧ mlt_properties_get_int shown.properties "rendered" = 1 :=
  ⟨by decide,
    (trick_play_materialised { boot with skip_next := 1, skipped := 3 } slow_tick
      (trick_frame 9) (by decide)).2.2.2.2.2.2⟩

/-! ### C8: the audio counter -/

/-- C8, as stated, fails: the counter is 1, not 0, after the bootstrap and no
iteration; and on a run of two iterations that acquire nothing and a third
that acquires a frame, the counter passed at the third iteration's fetch is 1
and the counter ends on 2, against 3 iterations (2 completed before the
fetch). -/
theorem audio_counter_starved :
    read_ahead_bootstrap (mlt_consumer_init none none).properties (some (normal_frame 0))
      = some boot
    ∧ boot.audio_off = 0
    ∧ (read_ahead_run boot []).counter = 1
    ∧ starved_run.length = 3
    ∧ audio_fetches (read_ahead_trace boot starved_run) = [1]
    ∧ (read_ahead_run boot starved_run).counter = 2 :=
  ⟨rfl, rfl, rfl, rfl, rfl, rfl⟩

/-- C8, amended: in a run with `audio_off = 0` whose frames arrive without
audio fetched, the counters passed to the sample calculator are 0 at the
bootstrap and then 1, 2, ... at the loop iterations that acquired a frame, in
order, so they are strictly increasing; an iteration that acquired no frame
fetches nothing and leaves the counter alone; after the run the counter is one
more than the number of iterations that acquired a frame. -/
theorem audio_counter (properties : mlt_properties) (first : mlt_frame) (l : read_ahead)
    (ins : List (tick × Option mlt_frame))
    (haudio : mlt_properties_get_int properties "audio_off" = 0)
    (hboot : read_ahead_bootstrap properties (some first) = some l)
    (hfirst : first.audio = []) (hfresh : fresh ins = true) :
    audio_fetches (l.frame :: read_ahead_trace l ins)
        = (List.range (acquired ins + 1)).map (fun (i : Nat) => (i : Int))
    ∧ List.Pairwise (fun a b => a < b) (audio_fetches (l.frame :: read_ahead_trace l ins))
    ∧ (read_ahead_run l ins).counter = (acquired ins : Int) + 1 := by
  have hl : l.audio_off = 0 ∧ l.counter = 1
      ∧ ∃ f, l.frame = some f ∧ f.audio = [0] := by
    unfold read_ahead_bootstrap at hboot
    simp only [haudio, if_true, Option.some.injEq] at hboot
    rw [← hboot]
    refine ⟨rfl, rfl, _, rfl, ?_⟩
    split_ifs <;> simp [hfirst]
  obtain ⟨h1, h2, f, h3, h4⟩ := hl
  obtain ⟨r1, r2⟩ := audio_counter_run ins l h1 hfresh
  have hlist : audio_fetches (l.frame :: read_ahead_trace l ins)
      = (List.range (acquired ins + 1)).map (fun (i : Nat) => (i : Int)) := by
    rw [h3, audio_fetches_some, h4, r1, h2, List.range_succ_eq_map]
    simp [Function.comp_def, add_comm]
  refine ⟨hlist, ?_, ?_⟩
  · rw [hlist]
    rw [List.pairwise_map]
    exact (List.pairwise_lt_range _).imp (fun h => by exact_mod_cast h)
  · rw [r2, h2]; ring

/-- C8, amended, on the run that starves twice: fetches 0 and 1, counter 2. -/
theorem audio_counter_witness :
    audio_fetches (boot.frame :: read_ahead_trace boot starved_run)
        = (List.range (acquired starved_run + 1)).map (fun (i : Nat) => (i : Int))
    ∧ List.Pairwise (fun a b => a < b)
        (audio_fetches (boot.frame :: read_ahead_trace boot starved_run))
    ∧ (read_ahead_run boot starved_run).counter = (acquired starved_run : Int) + 1 :=
  audio_counter (mlt_consumer_init none none).properties (normal_frame 0) boot starved_run
    rfl rfl rfl rfl

/-! ### C9: the limit on a run of skips -/

/-- C9, as stated, fails: after a slow first frame, six normal-speed frames in
a row are skipped starting from `skipped = 0`; the sixth skip resets the
counters, but its own processing took 50 ms on an empty queue, so the skip
decision sets `skip_next` again and the seventh frame (frame 8) is skipped
too: no image fetched although `video_off = 0`, not marked rendered. -/
theorem seventh_frame_skipped :
    boot.video_off = 0
    ∧ (read_ahead_loop boot slow_tick (some (normal_frame 1))).skipped = 0
    ∧ six_slow.length = 6
    ∧ skipped_run (read_ahead_loop boot slow_tick (some (normal_frame 1))) six_slow = true
    ∧ (read_ahead_loop
          (read_ahead_run (read_ahead_loop boot slow_tick (some (normal_frame 1)))
            (feed six_slow))
          slow_tick (some (normal_frame 8))).frame.map
        (fun f => (f.addr, f.image, mlt_properties_get_int f.properties "rendered"))
        = some (8, false, 0) :=
  ⟨rfl, rfl, rfl, rfl, rfl⟩

/-- C9, amended: when six normal-speed frames in a row are skipped starting
from `skipped = 0`, the first five skips reset nothing (`skipped` and `count`
each go up by one per frame) and the sixth resets the rolling counters:
`skipped`, `time_wait`, `time_frame` are 0, `count` is 1 and `time_process` is
the processing time of the sixth iteration alone.  The frame that follows is
not skipped (marked `rendered = 1`, image fetched when `video_off = 0`)
provided that processing time is at most 40000 or the queue occupancy read at
the sixth skip decision is above 5. -/
theorem skip_run_limit (l : read_ahead) (five : List (tick × mlt_frame))
    (sixth seventh : tick × mlt_frame)
    (hzero : l.skipped = 0) (hlen : five.length = 5)
    (hrun : skipped_run l (five ++ [sixth]) = true) :
    (∀ k, k ≤ 5 →
      (read_ahead_run l (feed (five.take k))).skipped = (k : Int)
      ∧ (read_ahead_run l (feed (five.take k))).count = l.count + (k : Int))
    ∧ (read_ahead_run l (feed (five ++ [sixth]))).skipped = 0
    ∧ (read_ahead_run l (feed (five ++ [sixth]))).time_wait = 0
    ∧ (read_ahead_run l (feed (five ++ [sixth]))).time_frame = 0
    ∧ (read_ahead_run l (feed (five ++ [sixth]))).count = 1
    ∧ (read_ahead_run l (feed (five ++ [sixth]))).time_process = sixth.1.process
    ∧ (¬ ((sixth.1.depth : Int) ≤ 5 ∧ sixth.1.process > 40000) →
        ∃ shown,
          (read_ahead_loop (read_ahead_run l (feed (five ++ [sixth]))) seventh.1
            (some seventh.2)).frame = some shown
          ∧ shown.addr = seventh.2.addr
          ∧ mlt_properties_get_int shown.properties "rendered" = 1
          ∧ (l.video_off = 0 → shown.image = true)) := by
  rw [skipped_run_append, Bool.and_eq_true] at hrun
  obtain ⟨hfive, hsixth⟩ := hrun
  obtain ⟨t6, f6⟩ := sixth
  simp only [skipped_run, Bool.and_true, Bool.and_eq_true, decide_eq_true_eq] at hsixth
  obtain ⟨hspeed, hskip⟩ := hsixth
  have hhead : ∀ k, k ≤ 5 → skipped_run l (five.take k) = true := by
    intro k _
    have h := skipped_run_append (five.take k) (five.drop k) l
    rw [List.take_append_drop, hfive] at h
    have h2 := h.symm
    rw [Bool.and_eq_true] at h2
    exact h2.1
  have hcount : ∀ k, k ≤ 5 →
      (read_ahead_run l (feed (five.take k))).skipped = (k : Int)
      ∧ (read_ahead_run l (feed (five.take k))).count = l.count + (k : Int)
      ∧ (read_ahead_run l (feed (five.take k))).video_off = l.video_off := by
    intro k hk
    have hlk : (five.take k).length = k := by
      rw [List.length_take, hlen]; omega
    obtain ⟨a, b, c⟩ := skipped_run_below (five.take k) l (hhead k hk) (by
      rw [hlk, hzero]; omega)
    rw [hlk, hzero] at a
    rw [hlk] at b
    exact ⟨by rw [a]; ring, b, c⟩
  have hall : read_ahead_run l (feed (five ++ [(t6, f6)]))
      = read_ahead_loop (read_ahead_run l (feed five)) t6 (some f6) := by
    unfold feed
    rw [List.map_append, read_ahead_run_append]
    rfl
  have h5 := hcount 5 (le_refl 5)
  rw [List.take_of_length_le (by omega)] at h5
  obtain ⟨s1, s2, s3, s4, s5, s6, s7⟩ :=
    skip_step_limit (read_ahead_run l (feed five)) t6 f6 hspeed hskip (by rw [h5.1]; decide)
  refine ⟨fun k hk => ⟨(hcount k hk).1, (hcount k hk).2.1⟩, ?_, ?_, ?_, ?_, ?_, ?_⟩
  · rw [hall]; exact s1
  · rw [hall]; exact s3
  · rw [hall]; exact s4
  · rw [hall]; exact s2
  · rw [hall]; exact s5
  · intro hno
    rw [hall]
    have hclear : (read_ahead_loop (read_ahead_run l (feed five)) t6 (some f6)).skip_next = 0 := by
      rw [s6, if_neg hno]
    obtain ⟨shown, e1, e2, e3, e4⟩ :=
      render_step (read_ahead_loop (read_ahead_run l (feed five)) t6 (some f6)) seventh.1
        seventh.2 hclear
    refine ⟨shown, e1, e2, e3, fun hv => e4 ?_⟩
    rw [s7, h5.2.2]; exact hv

/-- C9, amended, on five slow frames and a sixth whose processing takes no
time: the seventh frame (frame 8) is rendered. -/
theorem skip_run_limit_witness :
    (read_ahead_loop boot slow_tick (some (normal_frame 1))).skipped = 0
    ∧ skipped_run (read_ahead_loop boot slow_tick (some (normal_frame 1)))
        (five_slow ++ [(quick_tick, normal_frame 7)]) = true
    ∧ ∃ shown,
        (read_ahead_loop
          (read_ahead_run (read_ahead_loop boot slow_tick (some (normal_frame 1)))
            (feed (five_slow ++ [(quick_tick, normal_frame 7)])))
          slow_tick (some (normal_frame 8))).frame = some shown
        ∧ shown.addr = 8
        ∧ mlt_properties_get_int shown.properties "rendered" = 1
        ∧ ((0 : Int) = 0 → shown.image = true) :=
  ⟨rfl, rfl,
    (skip_run_limit (read_ahead_loop boot slow_tick (some (normal_frame 1))) five_slow
      (quick_tick, normal_frame 7) (slow_tick, normal_frame 8) rfl rfl rfl).2.2.2.2.2.2
      (by decide)⟩

/-! ### C10: the enrichment of an acquired frame -/

/-- C10, as stated, fails: a frame that arrives with `consumer_deinterlace`
already 1 keeps it on a consumer whose `progressive` and `deinterlace` are
both 0; the core sets the flag and never clears it. -/
theorem deinterlace_flag_kept :
    mlt_properties_get_int connected_consumer.properties "progressive" = 0
    ∧ mlt_properties_get_int connected_consumer.properties "deinterlace" = 0
    ∧ (mlt_consumer_get_frame connected_consumer
          (world.delivering (deinterlaced_frame 4))).map
        (fun r => r.2.map fun f =>
          (f.addr, mlt_properties_get_int f.properties "consumer_deinterlace"))
        = some (some (4, 1)) :=
  ⟨rfl, rfl, rfl⟩

/-- C10, amended: a frame returned by `mlt_consumer_get_frame` is the frame
acquired (from upstream, or from the push slot after the filters) with
`rescale.interp` equal to the consumer's `rescale`, `consumer_aspect_ratio`
equal to the consumer's `aspect_ratio`, and `consumer_deinterlace` equal to 1
if the consumer's `progressive` or `deinterlace` is non-zero; if both are zero
`consumer_deinterlace` is what the acquired frame carried. -/
theorem get_frame_enriches (this next : mlt_consumer) (w : world) (G : mlt_frame)
    (h : mlt_consumer_get_frame this w = some (next, some G)) :
    ∃ F, (w.upstream = some F
          ∨ ∃ P, get_frame_wait w.stopped this.put w.put_wakes = some (some P)
              ∧ F = mlt_service_apply_filters w P)
      ∧ G = get_frame_enrich this.properties F
      ∧ G.addr = F.addr
      ∧ (mlt_properties_get_int this.properties "progressive" ≠ 0
            ∨ mlt_properties_get_int this.properties "deinterlace" ≠ 0 →
          mlt_properties_get_int G.properties "consumer_deinterlace" = 1)
      ∧ (mlt_properties_get_int this.properties "progressive" = 0
            ∧ mlt_properties_get_int this.properties "deinterlace" = 0 →
          mlt_properties_get_int G.properties "consumer_deinterlace"
            = mlt_properties_get_int F.properties "consumer_deinterlace")
      ∧ mlt_properties_get G.properties "rescale.interp"
          = mlt_properties_get this.properties "rescale"
      ∧ mlt_properties_get_double G.properties "consumer_aspect_ratio"
          = mlt_properties_get_double this.properties "aspect_ratio" := by
  have key : ∃ F, (w.upstream = some F
          ∨ ∃ P, get_frame_wait w.stopped this.put w.put_wakes = some (some P)
              ∧ F = mlt_service_apply_filters w P)
      ∧ G = get_frame_enrich this.properties F := by
    unfold mlt_consumer_get_frame at h
    dsimp only at h
    split_ifs at h with h1 h2
    · cases hw : get_frame_wait w.stopped this.put w.put_wakes with
      | none => simp [hw] at h
      | some slot =>
        cases slot with
        | none => simp [hw] at h
        | some P =>
          simp only [hw, Option.map_some', Option.some.injEq, Prod.mk.injEq] at h
          exact ⟨_, Or.inr ⟨P, rfl, rfl⟩, h.2.symm⟩
    · cases hu : w.upstream with
      | none => simp [hu] at h
      | some F =>
        simp only [hu, Option.map_some', Option.some.injEq, Prod.mk.injEq] at h
        exact ⟨F, Or.inl rfl, h.2.symm⟩
    · simp at h
  obtain ⟨F, hF, rfl⟩ := key
  exact ⟨F, hF, rfl, get_frame_enrich_spec this.properties F⟩

/-- C10, amended, on a progressive consumer and a fresh upstream frame. -/
theorem get_frame_enriches_witness :
    ∃ F, ((world.delivering (mlt_frame_init 4)).upstream = some F
          ∨ ∃ P, get_frame_wait false none [] = some (some P)
              ∧ F = mlt_service_apply_filters (world.delivering (mlt_frame_init 4)) P)
      ∧ get_frame_enrich
          (mlt_properties_set_int connected_consumer.properties "progressive" 1)
          (mlt_frame_init 4)
        = get_frame_enrich
          (mlt_properties_set_int connected_consumer.properties "progressive" 1) F
      ∧ (4 : Nat) = F.addr
      ∧ mlt_properties_get_int
          (get_frame_enrich
            (mlt_properties_set_int connected_consumer.properties "progressive" 1)
            (mlt_frame_init 4)).properties "consumer_deinterlace" = 1 := by
  obtain ⟨F, h1, h2, h3, h4, -, -, -⟩ :=
    get_frame_enriches
      { connected_consumer with
        properties := mlt_properties_set_int connected_consumer.properties "progressive" 1 }
      { connected_consumer with
        properties := mlt_properties_set_int connected_consumer.properties "progressive" 1 }
      (world.delivering (mlt_frame_init 4))
      (get_frame_enrich
        (mlt_properties_set_int connected_consumer.properties "progressive" 1)
        (mlt_frame_init 4))
      rfl
  exact ⟨F, h1, h2, h3, h4 (Or.inl (by decide))⟩

/-! ### C11: an empty entry after a starved acquire -/

/-- The step of the thread at the loop test while `ahead` is set (line 376). -/
theorem thread_step_top (this : mlt_consumer) (l : read_ahead) (w : world) (t : tick)
    (h : this.ahead_thread = some (thread.top l)) (ha : this.ahead = true) :
    consumer_read_ahead_thread this w t = { this with ahead_thread := some (thread.push l) } := by
  unfold consumer_read_ahead_thread
  rw [h]
  dsimp only
  rw [if_pos ha]

/-- The step of the thread at the enqueue (lines 379-384): it waits, or it
appends the value in hand. -/
theorem thread_step_push (this : mlt_consumer) (l : read_ahead) (w : world) (t : tick)
    (h : this.ahead_thread = some (thread.push l)) :
    consumer_read_ahead_thread this w t
      = if this.ahead = true ∧ (this.queue.length : Int) ≥ l.buffer then this
        else { this with queue := this.queue ++ [l.frame],
                         ahead_thread := some (thread.body l) } := by
  unfold consumer_read_ahead_thread
  rw [h]
  dsimp only
  by_cases hc : this.ahead = true ∧ (this.queue.length : Int) ≥ l.buffer
  · rw [if_pos hc, if_pos (by simp [hc.1, hc.2])]
  · rw [if_neg hc, if_neg (by simpa using hc)]

/-- The step of the thread after the enqueue (lines 386-448), once
`mlt_consumer_get_frame` has returned. -/
theorem thread_step_body (this next : mlt_consumer) (l : read_ahead) (w : world) (t : tick)
    (frame : Option mlt_frame) (h : this.ahead_thread = some (thread.body l))
    (hg : mlt_consumer_get_frame this w = some (next, frame)) :
    consumer_read_ahead_thread this w t
      = { next with ahead_thread := some (thread.top (read_ahead_loop l t frame)) } := by
  unfold consumer_read_ahead_thread
  rw [h]
  dsimp only
  rw [hg]

/-- A real-time call on a running read-ahead with a queued entry takes the
entry at the front, whatever it is. -/
theorem rt_frame_pop (this : mlt_consumer) (w : world) (entry : Option mlt_frame)
    (rest : List (Option mlt_frame)) (hreal : this.real_time ≠ 0) (ha : this.ahead = true)
    (hq : this.queue = entry :: rest) :
    mlt_consumer_rt_frame this w = some ({ this with queue := rest }, entry) := by
  have hne : ¬ (this.ahead = false) := by rw [ha]; simp
  have hsize : rt_frame_size this = 1 := by
    unfold rt_frame_size
    dsimp only
    rw [if_neg hne]
  have hwait : rt_frame_wait 1 this.ahead this.queue w.queue_wakes
      = some { ahead := true, queue := entry :: rest } := by
    rw [ha, hq]
    cases w.queue_wakes <;> simp [rt_frame_wait]
  unfold mlt_consumer_rt_frame
  rw [if_pos hreal]
  dsimp only
  rw [if_neg hne, hsize, hwait]
  dsimp only
  have : ({ this with ahead := true, queue := rest } : mlt_consumer)
      = { this with queue := rest } := by
    rw [← ha]
  rw [List.tail_cons, List.head?_cons, this]
  rfl


/-- The sink's calls on a running read-ahead deliver the queued entries in
order, empty ones included. -/
theorem rt_frames_deliver (w : world) (entries : List (Option mlt_frame)) :
    ∀ (this : mlt_consumer) (rest : List (Option mlt_frame)), this.real_time ≠ 0 →
      this.ahead = true → this.queue = entries ++ rest →
      rt_frames w entries.length this = some ({ this with queue := rest }, entries) := by
  induction entries with
  | nil =>
    intro this rest _ _ hq
    rw [List.nil_append] at hq
    show some (this, []) = _
    rw [← hq]
  | cons entry more ih =>
    intro this rest hreal ha hq
    rw [List.cons_append] at hq
    have hpop := rt_frame_pop this w entry (more ++ rest) hreal ha hq
    have hnext := ih { this with queue := more ++ rest } rest hreal ha rfl
    show (match mlt_consumer_rt_frame this w with
      | none => none
      | some (next, frame) =>
        match rt_frames w more.length next with
        | none => none
        | some (last, frames) => some (last, frame :: frames)) = _
    rw [hpop]
    dsimp only
    rw [hnext]

/-- The steps of the thread at the loop test and after the enqueue leave the
queue as it is. -/
theorem thread_step_queue (this : mlt_consumer) (l : read_ahead) (w : world) (t : tick)
    (h : this.ahead_thread = some (thread.top l) ∨ this.ahead_thread = some (thread.body l)) :
    (consumer_read_ahead_thread this w t).queue = this.queue := by
  unfold consumer_read_ahead_thread
  rcases h with h | h
  · rw [h]
    dsimp only
    split_ifs
    · rfl
    · exact (mlt_frame_close_fields this l.frame).2.1
  · rw [h]
    dsimp only
    cases hg : mlt_consumer_get_frame this w with
    | none => rfl
    | some r =>
      obtain ⟨next, frame⟩ := r
      exact (get_frame_fields this next w frame hg).2.1

/-- C11: each enqueue of the read-ahead thread appends the value in hand,
frame or not, and the rest of an iteration leaves the queue alone, so an
iteration appends exactly one entry.  After an acquire that returned no frame
the thread is back at the loop test with nothing in hand, `count` and the audio
counter as they were; with `ahead` still set and room in the queue the next
iteration appends an empty entry, the two counters still unchanged when it is
queued; and the sink's real-time calls deliver the entries queued before it and
then that empty entry as "no frame", one call per entry. -/
theorem starved_acquire_enqueues_null (this next : mlt_consumer) (l : read_ahead)
    (w1 w2 w3 w4 : world) (t1 t2 t3 : tick)
    (hbody : this.ahead_thread = some (thread.body l))
    (hstarved : mlt_consumer_get_frame this w1 = some (next, none))
    (hahead : this.ahead = true)
    (hroom : (this.queue.length : Int) < l.buffer)
    (hreal : this.real_time ≠ 0) :
    (∀ (c : mlt_consumer) (k : read_ahead) (w : world) (t : tick),
        c.ahead_thread = some (thread.push k) →
          consumer_read_ahead_thread c w t = c
          ∨ consumer_read_ahead_thread c w t
              = { c with queue := c.queue ++ [k.frame],
                         ahead_thread := some (thread.body k) })
    ∧ (∀ (c : mlt_consumer) (k : read_ahead) (w : world) (t : tick),
        c.ahead_thread = some (thread.top k) ∨ c.ahead_thread = some (thread.body k) →
          (consumer_read_ahead_thread c w t).queue = c.queue)
    ∧ consumer_read_ahead_thread this w1 t1
        = { next with ahead_thread := some (thread.top (read_ahead_loop l t1 none)) }
    ∧ (read_ahead_loop l t1 none).frame = none
    ∧ (read_ahead_loop l t1 none).count = l.count
    ∧ (read_ahead_loop l t1 none).counter = l.counter
    ∧ consumer_read_ahead_thread
          (consumer_read_ahead_thread (consumer_read_ahead_thread this w1 t1) w2 t2) w3 t3
        = { next with queue := this.queue ++ [none],
                      ahead_thread := some (thread.body (read_ahead_loop l t1 none)) }
    ∧ rt_frames w4 (this.queue.length + 1)
          (consumer_read_ahead_thread
            (consumer_read_ahead_thread (consumer_read_ahead_thread this w1 t1) w2 t2) w3 t3)
        = some ({ next with queue := [],
                            ahead_thread := some (thread.body (read_ahead_loop l t1 none)) },
            this.queue ++ [none]) := by
  obtain ⟨g1, g2, -, -, g5⟩ := get_frame_fields this next w1 none hstarved
  have h1 := thread_step_body this next l w1 t1 none hbody hstarved
  have h2 : consumer_read_ahead_thread (consumer_read_ahead_thread this w1 t1) w2 t2
      = { next with ahead_thread := some (thread.push (read_ahead_loop l t1 none)) } := by
    rw [h1]
    exact thread_step_top _ (read_ahead_loop l t1 none) w2 t2 rfl (g1.trans hahead)
  have h3 : consumer_read_ahead_thread
      (consumer_read_ahead_thread (consumer_read_ahead_thread this w1 t1) w2 t2) w3 t3
      = { next with queue := this.queue ++ [none],
                    ahead_thread := some (thread.body (read_ahead_loop l t1 none)) } := by
    rw [h2, thread_step_push _ (read_ahead_loop l t1 none) w3 t3 rfl]
    have hfull : ¬ (next.ahead = true
        ∧ (next.queue.length : Int) ≥ (read_ahead_loop l t1 none).buffer) := by
      rw [read_ahead_loop_buffer, g2]
      intro hc
      omega
    rw [if_neg hfull, g2]
    rfl
  refine ⟨?_, ?_, h1, rfl, rfl, rfl, h3, ?_⟩
  · intro c k w t hk
    rw [thread_step_push c k w t hk]
    split_ifs
    · exact Or.inl rfl
    · exact Or.inr rfl
  · intro c k w t hk
    exact thread_step_queue c k w t hk
  · rw [h3]
    have hlen : this.queue.length + 1 = (this.queue ++ [none]).length := by
      rw [List.length_append, List.length_singleton]
    rw [hlen]
    have := rt_frames_deliver w4 (this.queue ++ [none])
      { next with queue := this.queue ++ [none],
                  ahead_thread := some (thread.body (read_ahead_loop l t1 none)) } []
      (by rw [g5]; exact hreal) (g1.trans hahead) (by rw [List.append_nil])
    rw [this]

/-- C11 on a connected consumer whose upstream delivers nothing after frame
1: the queue becomes frame 1 and an empty entry, and two calls of the sink
return frame 1 and then no frame. -/
theorem starved_acquire_enqueues_null_witness :
    ∃ l, awaiting_acquire.ahead_thread = some (thread.body l)
      ∧ l.count = 1 ∧ l.counter = 1
      ∧ (read_ahead_loop l quick_tick none).count = 1
      ∧ (read_ahead_loop l quick_tick none).counter = 1
      ∧ (consumer_read_ahead_thread
          (consumer_read_ahead_thread
            (consumer_read_ahead_thread awaiting_acquire world.quiet quick_tick)
            world.quiet quick_tick) world.quiet quick_tick).queue
          = awaiting_acquire.queue ++ [none]
      ∧ (rt_frames world.quiet (awaiting_acquire.queue.length + 1)
          (consumer_read_ahead_thread
            (consumer_read_ahead_thread
              (consumer_read_ahead_thread awaiting_acquire world.quiet quick_tick)
              world.quiet quick_tick) world.quiet quick_tick)).map
          (fun r => r.2.map (Option.map fun f => f.addr)) = some [some 1, none] := by
  have h := starved_acquire_enqueues_null awaiting_acquire awaiting_acquire _
    world.quiet world.quiet world.quiet world.quiet quick_tick quick_tick quick_tick
    rfl rfl rfl (by decide) (by decide)
  refine ⟨_, rfl, rfl, rfl, h.2.2.2.2.1, h.2.2.2.2.2.1, ?_, ?_⟩
  · rw [h.2.2.2.2.2.2.1]
  · rw [h.2.2.2.2.2.2.2]
    rfl

end Mlt
